import Mathlib

/-!
Verification development for the solo5e combat engine.

Shallow embedding of the Rust sources:
  engine/src/lib.rs        (dice, checks, attacks, damage, damage typing)
  engine/src/conditions.rs (condition records and lifecycle)
  engine/src/life.rs       (HP / death-save state machine)
  engine/src/checks.rs     (contested checks)
  engine/src/combat/actions.rs (grapple / shove)
  engine/src/api.rs        (duel and encounter orchestrators, Monte Carlo)
  cli/src/main.rs          (encounter subcommand with focus strategies)

The pseudorandom source (ChaCha8 in the source) is embedded as an abstract
stream of naturals together with a read position; a die of s sides drawn at
position p yields 1 + stream p % s, which realises every possible roll
sequence.  Machine integers are modelled as Int / Nat with explicit wrapping
or saturation exactly where the source performs it.
-/

set_option maxRecDepth 10000

/-! ## Basic enums (engine/src/lib.rs, conditions.rs) -/

inductive AdMode where
  | Normal
  | Advantage
  | Disadvantage
deriving DecidableEq, Repr

inductive DamageType where
  | Bludgeoning | Piercing | Slashing | Fire | Cold | Lightning | Acid
  | Poison | Psychic | Radiant | Necrotic | Thunder | Force
deriving DecidableEq, Repr

inductive Ability where
  | Str | Dex | Con | Int | Wis | Cha
deriving DecidableEq, Repr

/-- Condition kinds.  The snapshot of conditions.rs lists Poisoned, Prone and
Restrained; Grappled is referenced by combat/actions.rs and its tests.
Modelled from the spec: the ConditionKind enum also carries Grappled. -/
inductive ConditionKind where
  | Poisoned | Prone | Restrained | Grappled
deriving DecidableEq, Repr

inductive DurationPhase where
  | StartOfTurn
  | EndOfTurn
deriving DecidableEq, Repr

inductive TurnBoundary where
  | StartOfTurn
  | EndOfTurn
deriving DecidableEq, Repr

/-- Cover levels.  Modelled from the spec and tests/crit_cover.rs: the Cover
type itself is absent from the snapshot of lib.rs; its ac_bonus values 0 / 2 / 5
are pinned by the cover_bonuses_are_applied test and by spec section 6. -/
inductive Cover where
  | CNone | Half | ThreeQuarters
deriving DecidableEq, Repr

def Cover.ac_bonus : Cover → Int
  | Cover.CNone => 0
  | Cover.Half => 2
  | Cover.ThreeQuarters => 5

/-! ## Dice engine (engine/src/lib.rs, struct Dice)

A Dice value is an abstract entropy stream plus a position.  The source draws
gen_range(1..=s); the model draws 1 + stream pos % s, which is in 1..=s for
s > 0 and can realise any concrete roll sequence. -/

structure Dice where
  stream : Nat → Nat
  pos : Nat

def Dice.die (d : Dice) (sides : Nat) : Nat × Dice :=
  (1 + d.stream d.pos % sides, { d with pos := d.pos + 1 })

/-- d20 with advantage / disadvantage.  Returns the kept roll and the raw
rolls in draw order.  The raw-roll list mirrors the raw_rolls field exercised
by tests/crit_cover.rs (missing from the snapshot of lib.rs).
Modelled from the spec: raw draws are retrievable alongside the kept value. -/
def Dice.d20 (d : Dice) (mode : AdMode) : Int × List Int × Dice :=
  match mode with
  | AdMode.Normal =>
      let (a, d') := d.die 20
      ((a : Int), [(a : Int)], d')
  | AdMode.Advantage =>
      let (a, d') := d.die 20
      let (b, d'') := d'.die 20
      ((max a b : Nat), [(a : Int), (b : Int)], d'')
  | AdMode.Disadvantage =>
      let (a, d') := d.die 20
      let (b, d'') := d'.die 20
      ((min a b : Nat), [(a : Int), (b : Int)], d'')

/-! ## Rules primitives (engine/src/lib.rs) -/

/-- ability_mod: floor((score - 10) / 2), Euclidean floor division. -/
def ability_mod (score : Int) : Int := Int.fdiv (score - 10) 2

structure CheckResult where
  roll : Int
  total : Int
  dc : Int
  passed : Bool
deriving DecidableEq, Repr

def check (d : Dice) (dc modifier : Int) (mode : AdMode) : CheckResult × Dice :=
  let (roll, _, d') := d.d20 mode
  let total := roll + modifier
  ({ roll := roll, total := total, dc := dc, passed := total ≥ dc }, d')

/-- Attack result.  The fields is_crit and raw_rolls are absent from the
snapshot of lib.rs but exercised by tests/crit_cover.rs: is_crit is exactly a
kept roll of 20 (a 20 dropped by disadvantage is not a crit).
Modelled from the spec: nat20 / nat1 flags are on the kept roll. -/
structure AttackResult where
  roll : Int
  total : Int
  ac : Int
  bonus : Int
  nat20 : Bool
  nat1 : Bool
  hit : Bool
  is_crit : Bool
  raw_rolls : List Int
deriving DecidableEq, Repr

def attack (d : Dice) (mode : AdMode) (bonus ac : Int) : AttackResult × Dice :=
  let (r, raws, d') := d.d20 mode
  let nat20 := r = 20
  let nat1 := r = 1
  let total := r + bonus
  let hit := if nat20 then true else if nat1 then false else total ≥ ac
  ({ roll := r, total := total, ac := ac, bonus := bonus,
     nat20 := nat20, nat1 := nat1, hit := hit, is_crit := nat20,
     raw_rolls := raws }, d')

/-! DamageDice: count and sides are u8 in the source; modelled as Nat with the
saturating doubling min (2 * count) 255 written out where the source uses
count.saturating_mul(2). -/

structure DamageDice where
  count : Nat
  sides : Nat
deriving DecidableEq, Repr

/-- Sum n dice of the given sides, advancing the stream once per die. -/
def rollDice : Nat → Nat → Dice → Nat × Dice
  | 0, _, d => (0, d)
  | n + 1, sides, d =>
      let (v, d') := d.die sides
      let (s, d'') := rollDice n sides d'
      (v + s, d'')

/-- DamageDice::roll_total: on crit the count is doubled with u8 saturation. -/
def DamageDice.roll_total (dd : DamageDice) (d : Dice) (crit : Bool) : Nat × Dice :=
  let n := if crit then min (2 * dd.count) 255 else dd.count
  rollDice n dd.sides d

/-- damage: dice total plus modifier (modifier added once, even on crit). -/
def damage (d : Dice) (dice_spec : DamageDice) (modifier : Int) (crit : Bool) :
    Int × Dice :=
  let (s, d') := dice_spec.roll_total d crit
  ((s : Int) + modifier, d')

/-! ### adjust_damage_by_type and its f32 halving

The resistant branch of the source computes (base as f32 / 2.0).floor() as i32.
The i32 to f32 conversion rounds to the nearest representable value, ties to
even, with a 24-bit significand; division by 2.0 is exact, floor of the exact
value is Int.fdiv by 2, and the final cast truncates an in-range integral
value.  f32roundNat rounds a natural below 2^32 to the nearest f32. -/

def log2fuel : Nat → Nat → Nat
  | 0, _ => 0
  | f + 1, n => if n ≥ 2 then log2fuel f (n / 2) + 1 else 0

/-- Binade exponent (floor log2) for naturals below 2^32. -/
def log2_32 (n : Nat) : Nat := log2fuel 32 n

/-- Round a natural to the nearest f32-representable value, ties to even. -/
def f32roundNat (n : Nat) : Nat :=
  let e := log2_32 n
  if e ≤ 23 then n
  else
    let step := 2 ^ (e - 23)
    let q := n / step
    let r := n % step
    if 2 * r < step then q * step
    else if 2 * r > step then (q + 1) * step
    else if q % 2 = 0 then q * step else (q + 1) * step

/-- Value of (x as f32) for an i32 value x, as an exact integer. -/
def f32ofInt (x : Int) : Int :=
  if x ≥ 0 then (f32roundNat x.toNat : Int) else -(f32roundNat (-x).toNat : Int)

/-- Two-s-complement wrap of an Int into the i32 range, modelling release-mode
overflow of the i32 multiplication base * 2. -/
def i32wrap (x : Int) : Int := (x + 2 ^ 31) % 2 ^ 32 - 2 ^ 31

def adjust_damage_by_type (base : Int) (dtype : DamageType)
    (resist vuln immune : List DamageType) : Int :=
  if dtype ∈ immune then 0
  else
    let has_res := dtype ∈ resist
    let has_vuln := dtype ∈ vuln
    if has_res ∧ has_vuln then base
    else if has_res then Int.fdiv (f32ofInt base) 2
    else if has_vuln then i32wrap (base * 2)
    else base

/-! ## Saving throws, weapons, actor (engine/src/lib.rs) -/

/-- SavingThrow is referenced by conditions.rs and the tests but its struct is
absent from the snapshot of lib.rs.  Modelled from the spec: an ability plus a
DC. -/
structure SavingThrow where
  ability : Ability
  dc : Int
deriving DecidableEq, Repr

structure AbilityScores where
  str_ : Int
  dex : Int
  con : Int
  int_ : Int
  wis : Int
  cha : Int
deriving DecidableEq, Repr

def AbilityScores.get (s : AbilityScores) : Ability → Int
  | Ability.Str => s.str_
  | Ability.Dex => s.dex
  | Ability.Con => s.con
  | Ability.Int => s.int_
  | Ability.Wis => s.wis
  | Ability.Cha => s.cha

def AbilityScores.mod_of (s : AbilityScores) (a : Ability) : Int :=
  ability_mod (s.get a)

structure Actor where
  abilities : AbilityScores
  proficiency_bonus : Int
  save_proficiencies : List Ability
deriving Repr

def Actor.ability_mod (ac : Actor) (a : Ability) : Int := ac.abilities.mod_of a

def Actor.save_mod (ac : Actor) (a : Ability) : Int :=
  ac.ability_mod a +
    (if a ∈ ac.save_proficiencies then ac.proficiency_bonus else 0)

def Actor.attack_bonus (ac : Actor) (a : Ability) (proficient : Bool) : Int :=
  ac.ability_mod a + (if proficient then ac.proficiency_bonus else 0)

def Actor.damage_mod (ac : Actor) (a : Ability) : Int := ac.ability_mod a

structure Weapon where
  name : String
  dice : DamageDice
  finesse : Bool
  ranged : Bool
  versatile : Option DamageDice
  damage_type : Option DamageType
deriving Repr

/-! ## Condition system (engine/src/conditions.rs) -/

structure ConditionDuration where
  until_ : Option DurationPhase
  save_ends_each_turn : Bool
deriving DecidableEq, Repr

structure ConditionSpec where
  kind : ConditionKind
  save : Option SavingThrow
  duration : ConditionDuration
deriving DecidableEq, Repr

structure ActiveCondition where
  kind : ConditionKind
  save_ends_each_turn : Bool
  end_phase : Option DurationPhase
  end_save : Option SavingThrow
  pending_one_turn : Bool
deriving DecidableEq, Repr

def ActiveCondition.from_spec_for_application (spec : ConditionSpec) :
    ActiveCondition :=
  { kind := spec.kind
    save_ends_each_turn := spec.duration.save_ends_each_turn
    end_phase := spec.duration.until_
    end_save := spec.save
    pending_one_turn := spec.duration.until_.isSome }

inductive Vantage where
  | Normal
  | Advantage
  | Disadvantage
deriving DecidableEq, Repr

def Vantage.combine : Vantage → Vantage → Vantage
  | Vantage.Disadvantage, Vantage.Advantage => Vantage.Normal
  | Vantage.Advantage, Vantage.Disadvantage => Vantage.Normal
  | Vantage.Normal, x => x
  | x, Vantage.Normal => x
  | Vantage.Advantage, Vantage.Advantage => Vantage.Advantage
  | Vantage.Disadvantage, Vantage.Disadvantage => Vantage.Disadvantage

def Vantage.toAdMode : Vantage → AdMode
  | Vantage.Normal => AdMode.Normal
  | Vantage.Advantage => AdMode.Advantage
  | Vantage.Disadvantage => AdMode.Disadvantage

def AdMode.toVantage : AdMode → Vantage
  | AdMode.Normal => Vantage.Normal
  | AdMode.Advantage => Vantage.Advantage
  | AdMode.Disadvantage => Vantage.Disadvantage

inductive AttackStyle where
  | Melee
  | Ranged
deriving DecidableEq, Repr

/-- vantage_from_conditions.  Grappled on the target contributes nothing, like
Poisoned (the snapshot of conditions.rs matches only Poisoned, Prone,
Restrained exhaustively; modelled from the spec, which gives no vantage effect
to Grappled). -/
def vantage_from_conditions (attacker_conds target_conds : List ActiveCondition)
    (style : AttackStyle) : Vantage :=
  let net0 :=
    if attacker_conds.any fun c =>
        c.kind = ConditionKind.Poisoned ∨ c.kind = ConditionKind.Restrained then
      Vantage.Normal.combine Vantage.Disadvantage
    else Vantage.Normal
  target_conds.foldl
    (fun net c =>
      match c.kind with
      | ConditionKind.Restrained => net.combine Vantage.Advantage
      | ConditionKind.Prone =>
          match style with
          | AttackStyle.Melee => net.combine Vantage.Advantage
          | AttackStyle.Ranged => net.combine Vantage.Disadvantage
      | ConditionKind.Poisoned => net
      | ConditionKind.Grappled => net)
    net0

/-! ## Life / death state machine types (engine/src/life.rs) -/

inductive LifeState where
  | Conscious
  | Unconscious (stable : Bool)
  | Dead
deriving DecidableEq, Repr

structure DeathSaves where
  successes : Nat
  failures : Nat
deriving DecidableEq, Repr

def DeathSaves.default : DeathSaves := { successes := 0, failures := 0 }

structure Health where
  hp : Int
  max_hp : Int
  state : LifeState
  death : DeathSaves
deriving DecidableEq, Repr

def Health.new (max_hp : Int) : Health :=
  { hp := max_hp, max_hp := max_hp, state := LifeState.Conscious,
    death := DeathSaves.default }

/-! ## Structured event log

Each constructor corresponds to one log-emission site of the source and
carries exactly the values interpolated into the formatted string there. -/

inductive DeathNote where
  | nat20 | nat1 | success | failure
deriving DecidableEq, Repr

inductive DeathOutcome where
  | dead (roll : Int)
  | stabilized (roll : Int)
  | note (roll : Int) (n : DeathNote)
deriving DecidableEq, Repr

inductive Ev where
  | condStart (who : String) (k : ConditionKind)
  | startBanner (aac ahp : Int) (tname : String) (tac thp : Int)
  | initiative (ai ei : Int) (actorFirst : Bool)
  | roundStart (n : Nat) (actorsTurn : Bool)
  | roundStartEnc (n : Nat)
  | deathSaveDead (who : String) (roll : Int) (f s : Nat)
  | deathSaveStable (who : String) (roll : Int)
  | deathSaveNote (who : String) (roll : Int) (note : DeathNote) (s f : Nat)
  | turnDeathSave (outcome : DeathOutcome)
  | deadSkip (who : String)
  | unconSkip (who : String)
  | defense (who : String) (ac : Int) (cover : Cover)
  | attackEv (who : String) (raws : List Int) (kept total ac : Int)
      (crit hit nat1 : Bool)
  | damageEv (who : String) (dice : DamageDice) (modifier : Int) (crit : Bool)
      (total : Int) (dtype : Option DamageType)
  | hpChange (who : String) (before after : Int)
  | hpNow (who : String) (hp : Int)
  | dmgApplied (who : String) (before after amt : Int)
  | condGain (who : String) (k : ConditionKind)
  | condGainUnconscious (who : String)
  | dropsTo0 (who : String)
  | itemDrop (who : String)
  | healEv (who : String) (amount before after : Int) (wake : Bool)
  | stabilizedEv (who : String)
  | saveEnds (who : String) (a : Ability) (dc : Int) (k : ConditionKind)
      (roll total : Int) (success : Bool)
  | condRemoved (who : String) (k : ConditionKind)
  | condExpires (who : String) (k : ConditionKind) (phase : DurationPhase)
  | resistSave (who : String) (k : ConditionKind) (a : Ability)
      (dc roll total : Int) (success : Bool)
  | endBanner (winner : String) (ahp ehp : Int) (rounds : Nat)
  | encounterBanner (name : String) (n : Nat)
  | enemyDefeated (who : String)
  | encounterEnd (survived : Bool) (remaining : Nat) (rounds : Nat)
  | contestEv (attLabel defLabel : String) (ar at_ dr dt : Int)
  | grappledEv (who : String)
  | shovedEv (who : String)
  | contestFailEv (grapple : Bool)
deriving DecidableEq, Repr

/-! ## Condition lifecycle (engine/src/conditions.rs) -/

/-- A saving-throw oracle: given ability and DC and the dice state, produce
(roll, total) and the advanced dice state.  In the orchestrators this is
always a closure drawing one normal d20 and adding a save modifier. -/
def SaveFn : Type := Ability → Int → Dice → (Int × Int) × Dice

/-- First pass of the end-of-turn boundary: attempt the end-save of every
condition flagged save_ends_each_turn (in list order), marking those whose
save succeeded for removal. -/
def processSaves (who : String) (sfn : SaveFn) :
    List ActiveCondition → Dice → List (ActiveCondition × Bool) × List Ev × Dice
  | [], d => ([], [], d)
  | c :: rest, d =>
      if c.save_ends_each_turn then
        match c.end_save with
        | some sv =>
            let ((roll, total), d') := sfn sv.ability sv.dc d
            let success := total ≥ sv.dc
            let (tl, evs, d'') := processSaves who sfn rest d'
            ((c, success) :: tl,
             Ev.saveEnds who sv.ability sv.dc c.kind roll total
               (decide success) :: evs, d'')
        | none =>
            let (tl, evs, d') := processSaves who sfn rest d
            ((c, false) :: tl, evs, d')
      else
        let (tl, evs, d') := processSaves who sfn rest d
        ((c, false) :: tl, evs, d')

def DurationPhase.ofBoundary : TurnBoundary → DurationPhase
  | TurnBoundary.StartOfTurn => DurationPhase.StartOfTurn
  | TurnBoundary.EndOfTurn => DurationPhase.EndOfTurn

/-- process_turn_boundary: end-of-turn saves first (saves logged in iteration
order, removals logged in reverse index order), then fixed-phase expiry of
pending one-turn conditions (again removed in reverse index order). -/
def process_turn_boundary (boundary : TurnBoundary) (who : String)
    (conds : List ActiveCondition) (sfn : SaveFn) (d : Dice) :
    List ActiveCondition × List Ev × Dice :=
  let (marked, evs1, d') :=
    match boundary with
    | TurnBoundary.EndOfTurn => processSaves who sfn conds d
    | TurnBoundary.StartOfTurn => (conds.map fun c => (c, false), [], d)
  let kept1 := (marked.filter fun p => !p.2).map fun p => p.1
  let evs2 :=
    ((marked.filter fun p => p.2).map fun p => p.1).reverse.map fun c =>
      Ev.condRemoved who c.kind
  let phase := DurationPhase.ofBoundary boundary
  let expiring := fun c : ActiveCondition =>
    c.pending_one_turn && c.end_phase = some phase
  let kept2 := kept1.filter fun c => !expiring c
  let evs3 :=
    (kept1.filter expiring).reverse.map fun c => Ev.condExpires who c.kind phase
  (kept2, evs1 ++ evs2 ++ evs3, d')

/-- maybe_apply_on_hit_condition: an optional resisting save aborts on
success; otherwise a fresh ActiveCondition is pushed (unconditionally). -/
def maybe_apply_on_hit_condition (who : String)
    (conds : List ActiveCondition) (spec : ConditionSpec) (sfn : SaveFn)
    (d : Dice) : List ActiveCondition × List Ev × Dice :=
  match spec.save with
  | some sv =>
      let ((roll, total), d') := sfn sv.ability sv.dc d
      let success := total ≥ sv.dc
      let ev :=
        Ev.resistSave who spec.kind sv.ability sv.dc roll total (decide success)
      if success then (conds, [ev], d')
      else
        (conds ++ [ActiveCondition.from_spec_for_application spec],
         [ev, Ev.condGain who spec.kind], d')
  | none =>
      (conds ++ [ActiveCondition.from_spec_for_application spec],
       [Ev.condGain who spec.kind], d)

/-! ## Life / death transitions (engine/src/life.rs) -/

/-- apply_damage: no-op on the Dead; otherwise subtract, clamp at 0, and on a
crossing from positive to exactly 0 become Unconscious (not stable) and gain
Prone unless already Prone.  Returns true when the creature dropped this
call. -/
def apply_damage (name : String) (h : Health) (conds : List ActiveCondition)
    (dmg : Int) : Health × List ActiveCondition × Bool × List Ev :=
  if h.state = LifeState.Dead then (h, conds, false, [])
  else
    let before := h.hp
    let hp' := max (h.hp - dmg) 0
    let ev0 := Ev.dmgApplied name before hp' dmg
    if before > 0 ∧ hp' = 0 then
      let h' := { h with hp := hp', state := LifeState.Unconscious false }
      if conds.any fun c => c.kind = ConditionKind.Prone then
        (h', conds, true, [ev0, Ev.dropsTo0 name])
      else
        (h', conds ++ [{ kind := ConditionKind.Prone,
                         save_ends_each_turn := false, end_phase := none,
                         end_save := none, pending_one_turn := false }],
         true, [ev0, Ev.condGainUnconscious name, Ev.dropsTo0 name])
    else ({ h with hp := hp' }, conds, false, [ev0])

/-- heal: no-op for non-positive amounts; cap at max_hp; waking from
unconsciousness resets the death-save tally. -/
def heal (name : String) (h : Health) (amount : Int) : Health × List Ev :=
  if amount ≤ 0 then (h, [])
  else
    let before := h.hp
    let was_uncon :=
      match h.state with
      | LifeState.Unconscious _ => true
      | _ => false
    let hp' := min (h.hp + amount) h.max_hp
    if was_uncon && decide (hp' > 0) then
      ({ h with hp := hp', state := LifeState.Conscious,
                death := DeathSaves.default },
       [Ev.healEv name amount before hp' true])
    else ({ h with hp := hp' }, [Ev.healEv name amount before hp' false])

def stabilize (name : String) (h : Health) : Health × List Ev :=
  match h.state with
  | LifeState.Unconscious _ =>
      ({ h with state := LifeState.Unconscious true }, [Ev.stabilizedEv name])
  | _ => (h, [])

/-- process_death_save_start_of_turn: fires only when Unconscious, not
stable, at exactly 0 HP; otherwise no die is rolled and None is returned. -/
def process_death_save_start_of_turn (name : String) (h : Health)
    (d20 : Dice → Int × Dice) (d : Dice) :
    Health × Option DeathOutcome × List Ev × Dice :=
  match h.state with
  | LifeState.Unconscious stable =>
      if !stable ∧ h.hp = 0 then
        let (roll, d') := d20 d
        let (h1, note) :=
          if roll = 20 then
            ({ h with death := DeathSaves.default, hp := 1,
                      state := LifeState.Conscious }, DeathNote.nat20)
          else if roll = 1 then
            ({ h with death :=
                { h.death with failures := min (h.death.failures + 2) 3 } },
             DeathNote.nat1)
          else if roll ≥ 10 then
            ({ h with death :=
                { h.death with successes := min (h.death.successes + 1) 3 } },
             DeathNote.success)
          else
            ({ h with death :=
                { h.death with failures := min (h.death.failures + 1) 3 } },
             DeathNote.failure)
        if h1.death.failures ≥ 3 then
          let h2 := { h1 with state := LifeState.Dead }
          (h2, some (DeathOutcome.dead roll),
           [Ev.deathSaveDead name roll h1.death.failures h1.death.successes],
           d')
        else if h1.death.successes ≥ 3 then
          let h2 := { h1 with state := LifeState.Unconscious true }
          (h2, some (DeathOutcome.stabilized roll),
           [Ev.deathSaveStable name roll], d')
        else
          (h1, some (DeathOutcome.note roll note),
           [Ev.deathSaveNote name roll note h1.death.successes
              h1.death.failures], d')
      else (h, none, [], d)
  | _ => (h, none, [], d)

/-! ## Contested checks and grapple / shove
(engine/src/checks.rs, engine/src/combat/actions.rs) -/

inductive ContestOutcome where
  | AttackerWins
  | DefenderWins
  | TieDefender
deriving DecidableEq, Repr

def contested_check (d20 : Dice → Int × Dice) (att_mod def_mod : Int)
    (att_label def_label : String) (d : Dice) :
    ContestOutcome × List Ev × Dice :=
  let (ar, d1) := d20 d
  let (dr, d2) := d20 d1
  let at_ := ar + att_mod
  let dt := dr + def_mod
  let ev := Ev.contestEv att_label def_label ar at_ dr dt
  if at_ > dt then (ContestOutcome.AttackerWins, [ev], d2)
  else if at_ = dt then (ContestOutcome.TieDefender, [ev], d2)
  else (ContestOutcome.DefenderWins, [ev], d2)

def best_of_str_dex (str_mod dex_mod : Int) : Ability × Int :=
  if dex_mod > str_mod then (Ability.Dex, dex_mod) else (Ability.Str, str_mod)

def attempt_grapple (attacker_name : String) (attacker_str_mod : Int)
    (defender_name : String) (defender_str_mod defender_dex_mod : Int)
    (defender_conds : List ActiveCondition) (d20 : Dice → Int × Dice)
    (d : Dice) : Bool × List ActiveCondition × List Ev × Dice :=
  let def_mod := (best_of_str_dex defender_str_mod defender_dex_mod).2
  let (outcome, evs, d') :=
    contested_check d20 attacker_str_mod def_mod
      (attacker_name ++ " (STR)") (defender_name ++ " (best STR/DEX)") d
  match outcome with
  | ContestOutcome.AttackerWins =>
      let conds' :=
        if defender_conds.any fun c => c.kind = ConditionKind.Grappled then
          defender_conds
        else
          defender_conds ++ [{ kind := ConditionKind.Grappled,
                               save_ends_each_turn := false, end_phase := none,
                               end_save := none, pending_one_turn := false }]
      (true, conds', evs ++ [Ev.grappledEv defender_name], d')
  | _ => (false, defender_conds, evs ++ [Ev.contestFailEv true], d')

def attempt_shove_prone (attacker_name : String) (attacker_str_mod : Int)
    (defender_name : String) (defender_str_mod defender_dex_mod : Int)
    (defender_conds : List ActiveCondition) (d20 : Dice → Int × Dice)
    (d : Dice) : Bool × List ActiveCondition × List Ev × Dice :=
  let def_mod := (best_of_str_dex defender_str_mod defender_dex_mod).2
  let (outcome, evs, d') :=
    contested_check d20 attacker_str_mod def_mod
      (attacker_name ++ " (STR)") (defender_name ++ " (best STR/DEX)") d
  match outcome with
  | ContestOutcome.AttackerWins =>
      let conds' :=
        if defender_conds.any fun c => c.kind = ConditionKind.Prone then
          defender_conds
        else
          defender_conds ++ [{ kind := ConditionKind.Prone,
                               save_ends_each_turn := false, end_phase := none,
                               end_save := none, pending_one_turn := false }]
      (true, conds', evs ++ [Ev.shovedEv defender_name], d')
  | _ => (false, defender_conds, evs ++ [Ev.contestFailEv false], d')

/-! ## Target / enemy data and content helpers (engine/src/api.rs) -/

structure TargetAttack where
  name : String
  to_hit : Int
  dice : DamageDice
  damage_type : Option DamageType
  ranged : Bool
  apply_condition : Option ConditionSpec
deriving DecidableEq, Repr

structure TargetData where
  name : String
  ac : Int
  hp : Int
  dex_mod : Int
  abilities : Option AbilityScores
  attacks : List TargetAttack
  resistances : List String
  vulnerabilities : List String
  immunities : List String
  conditions : List ConditionKind
  cover : Cover
deriving Repr

def TargetData.dexterity_mod (t : TargetData) : Int :=
  match t.abilities with
  | some scores => scores.mod_of Ability.Dex
  | none => t.dex_mod

def TargetData.ability_mod (t : TargetData) (a : Ability) : Int :=
  match t.abilities with
  | some scores => scores.mod_of a
  | none => if a = Ability.Dex then t.dex_mod else 0

/-- ASCII lowercasing, structurally recursive over the character data (the
source strings are ASCII; to_lowercase and eq_ignore_ascii_case agree with
this on ASCII input). -/
def lowerChar (c : Char) : Char :=
  if 'A' ≤ c ∧ c ≤ 'Z' then Char.ofNat (c.toNat + 32) else c

def asciiLower (s : String) : String := String.mk (s.data.map lowerChar)

def isSpaceChar (c : Char) : Bool :=
  c = ' ' ∨ c = '\t' ∨ c = '\n' ∨ c = '\r'

/-- ASCII whitespace trim, structurally recursive. -/
def trimAscii (s : String) : String :=
  String.mk (((s.data.dropWhile isSpaceChar).reverse.dropWhile
    isSpaceChar).reverse)

def parse_damage_type (s : String) : Option DamageType :=
  match asciiLower s with
  | "bludgeoning" => some DamageType.Bludgeoning
  | "piercing" => some DamageType.Piercing
  | "slashing" => some DamageType.Slashing
  | "fire" => some DamageType.Fire
  | "cold" => some DamageType.Cold
  | "lightning" => some DamageType.Lightning
  | "acid" => some DamageType.Acid
  | "poison" => some DamageType.Poison
  | "psychic" => some DamageType.Psychic
  | "radiant" => some DamageType.Radiant
  | "necrotic" => some DamageType.Necrotic
  | "thunder" => some DamageType.Thunder
  | "force" => some DamageType.Force
  | _ => none

/-- HashSet membership is modelled by list membership (duplicates and order
do not affect contains). -/
def collect_damage_types (src : List String) : List DamageType :=
  src.filterMap parse_damage_type

def make_active_condition (kind : ConditionKind) : ActiveCondition :=
  { kind := kind, save_ends_each_turn := false, end_phase := none,
    end_save := none, pending_one_turn := false }

def parse_condition_kind (s : String) : Option ConditionKind :=
  match asciiLower (trimAscii s) with
  | "poisoned" => some ConditionKind.Poisoned
  | "prone" => some ConditionKind.Prone
  | "restrained" => some ConditionKind.Restrained
  | _ => none

def parse_condition_list (src : List String) : List ActiveCondition :=
  (src.filterMap parse_condition_kind).map make_active_condition

def preset_damage_type (name : String) : Option DamageType :=
  match asciiLower name with
  | "longsword" => some DamageType.Slashing
  | "greatsword" => some DamageType.Slashing
  | "shortsword" => some DamageType.Piercing
  | "dagger" => some DamageType.Piercing
  | "longbow" => some DamageType.Piercing
  | _ => none

/-- find_weapon: case-insensitive name lookup (eq_ignore_ascii_case modelled
as comparison of lowercased names). -/
def find_weapon (weapons : List Weapon) (name : String) : Option Weapon :=
  weapons.find? fun w => asciiLower w.name = asciiLower name

/-- sample_fighter.  The skill-proficiency set of the source Actor is omitted
from the model: no simulation path reads it. -/
def sample_fighter : Actor :=
  { abilities :=
      { str_ := 16, dex := 14, con := 14, int_ := 10, wis := 12, cha := 8 }
    proficiency_bonus := 2
    save_proficiencies := [Ability.Str, Ability.Con] }

def DEFAULT_ACTOR_AC : Int := 16
def DEFAULT_ACTOR_HP : Int := 12
def MAX_ROUNDS : Nat := 30

/-! ## Duel orchestrator (engine/src/api.rs, simulate_duel)

Content loading from paths / built-in JSON is I/O glue outside the engine
core; the model takes the parsed target and weapon list directly.  The seed
to PRNG-stream construction is abstracted by a streamOf parameter, so every
theorem quantifying over streamOf holds for the ChaCha8 construction. -/

structure DuelCfg where
  target : TargetData
  weapons : List Weapon
  weapon : String
  actor_conditions : List String
  enemy_conditions : List String
  seed : Nat
  actor_hp : Option Int

structure DuelResult where
  winner : String
  rounds : Nat
  actor_hp_end : Int
  enemy_hp_end : Int
  log : List Ev

/-- Full terminal snapshot: the DuelResult of the source plus the internal
final state, exposed for the statements about life state and conditions. -/
structure DuelFull where
  result : DuelResult
  actorHealth : Health
  actorConds : List ActiveCondition
  enemyConds : List ActiveCondition

structure DuelEnv where
  actor : Actor
  actor_ac : Int
  target : TargetData
  target_attack : TargetAttack
  weapon_dice : DamageDice
  weapon_damage_type : Option DamageType
  style : AttackStyle
  attack_bonus : Int
  damage_mod : Int
  resist : List DamageType
  vuln : List DamageType
  immune : List DamageType

structure DuelSt where
  rng : Dice
  logs : List Ev
  actorHealth : Health
  actorConds : List ActiveCondition
  enemyHp : Int
  enemyConds : List ActiveCondition
  actorTurn : Bool
  rounds : Nat

/-- The save closure used for the actor: one normal d20 plus save modifier. -/
def actorSaveFn (actor : Actor) : SaveFn := fun ability _dc d =>
  let (roll, _, d') := d.d20 AdMode.Normal
  ((roll, roll + actor.save_mod ability), d')

/-- The save closure used for the enemy side. -/
def enemySaveFn (t : TargetData) : SaveFn := fun ability _dc d =>
  let (roll, _, d') := d.d20 AdMode.Normal
  ((roll, roll + t.ability_mod ability), d')

def plainD20 : Dice → Int × Dice := fun d =>
  let (r, _, d') := d.d20 AdMode.Normal
  (r, d')

def logAttack (who : String) (atk : AttackResult) : Ev :=
  Ev.attackEv who atk.raw_rolls atk.roll atk.total atk.ac atk.is_crit atk.hit
    atk.nat1

def duelActorTurn (env : DuelEnv) (s : DuelSt) : DuelSt :=
  let (h1, outcome, evs1, d1) :=
    process_death_save_start_of_turn "Actor" s.actorHealth plainD20 s.rng
  let logs1 := s.logs ++ evs1 ++
    (match outcome with
     | some o => [Ev.turnDeathSave o]
     | none => [])
  let (conds1, evs2, d2) :=
    process_turn_boundary TurnBoundary.StartOfTurn "Actor" s.actorConds
      (actorSaveFn env.actor) d1
  let logs2 := logs1 ++ evs2
  let mid : DuelSt :=
    match h1.state with
    | LifeState.Dead =>
        { s with rng := d2, logs := logs2 ++ [Ev.deadSkip "Actor"],
                 actorHealth := h1, actorConds := conds1 }
    | LifeState.Unconscious _ =>
        { s with rng := d2, logs := logs2 ++ [Ev.unconSkip "Actor"],
                 actorHealth := h1, actorConds := conds1 }
    | LifeState.Conscious =>
        let cond_vantage :=
          vantage_from_conditions conds1 s.enemyConds env.style
        let final_mode :=
          ((AdMode.Normal.toVantage).combine cond_vantage).toAdMode
        let effective_enemy_ac := env.target.ac + env.target.cover.ac_bonus
        let logs3 := logs2 ++
          [Ev.defense env.target.name env.target.ac env.target.cover]
        let (atk, d3) := attack d2 final_mode env.attack_bonus effective_enemy_ac
        let logs4 := logs3 ++ [logAttack "Actor" atk]
        if atk.hit then
          let (raw, d4) := damage d3 env.weapon_dice env.damage_mod atk.is_crit
          let dtype := env.weapon_damage_type.getD DamageType.Slashing
          let dmg := adjust_damage_by_type raw dtype env.resist env.vuln
            env.immune
          let before := s.enemyHp
          let ehp := max (s.enemyHp - dmg) 0
          let logs5 := logs4 ++
            [Ev.damageEv "Actor" env.weapon_dice env.damage_mod atk.is_crit dmg
               (some dtype),
             Ev.hpChange env.target.name before ehp]
          { s with rng := d4, logs := logs5, actorHealth := h1,
                   actorConds := conds1, enemyHp := ehp }
        else
          { s with rng := d3, logs := logs4, actorHealth := h1,
                   actorConds := conds1 }
  let (conds2, evs4, dF) :=
    process_turn_boundary TurnBoundary.EndOfTurn "Actor" mid.actorConds
      (actorSaveFn env.actor) mid.rng
  { mid with rng := dF, logs := mid.logs ++ evs4, actorConds := conds2 }

def duelEnemyTurn (env : DuelEnv) (s : DuelSt) : DuelSt :=
  let (econds1, evs1, d1) :=
    process_turn_boundary TurnBoundary.StartOfTurn env.target.name s.enemyConds
      (enemySaveFn env.target) s.rng
  let logs1 := s.logs ++ evs1
  let mid : DuelSt :=
    if s.enemyHp > 0 then
      let style :=
        if env.target_attack.ranged then AttackStyle.Ranged
        else AttackStyle.Melee
      let cond_vantage := vantage_from_conditions econds1 s.actorConds style
      let final_mode := (Vantage.Normal.combine cond_vantage).toAdMode
      let effective_actor_ac := env.actor_ac + Cover.CNone.ac_bonus
      let logs2 := logs1 ++ [Ev.defense "Actor" env.actor_ac Cover.CNone]
      let (atk, d2) :=
        attack d1 final_mode env.target_attack.to_hit effective_actor_ac
      let logs3 := logs2 ++ [logAttack env.target_attack.name atk]
      if atk.hit then
        let dtype := env.target_attack.damage_type.getD DamageType.Slashing
        let (dmg, d3) := damage d2 env.target_attack.dice 0 atk.is_crit
        let logs4 := logs3 ++
          [Ev.damageEv env.target_attack.name env.target_attack.dice 0
             atk.is_crit dmg (some dtype)]
        let (h1, aconds1, dropped, evs2) :=
          apply_damage "Actor" s.actorHealth s.actorConds dmg
        let logs5 := logs4 ++ evs2 ++ [Ev.hpNow "Actor" h1.hp] ++
          (if dropped then [Ev.itemDrop "Actor"] else [])
        let (aconds2, evs3, d4) :=
          match env.target_attack.apply_condition with
          | some spec =>
              maybe_apply_on_hit_condition "Actor" aconds1 spec
                (actorSaveFn env.actor) d3
          | none => (aconds1, [], d3)
        { s with rng := d4, logs := logs5 ++ evs3, actorHealth := h1,
                 actorConds := aconds2, enemyConds := econds1 }
      else
        { s with rng := d2, logs := logs3, enemyConds := econds1 }
    else { s with rng := d1, logs := logs1, enemyConds := econds1 }
  let (econds2, evs4, dF) :=
    process_turn_boundary TurnBoundary.EndOfTurn env.target.name mid.enemyConds
      (enemySaveFn env.target) mid.rng
  { mid with rng := dF, logs := mid.logs ++ evs4, enemyConds := econds2 }

def duelRound (env : DuelEnv) (s : DuelSt) : DuelSt :=
  let s0 : DuelSt :=
    { s with rounds := s.rounds + 1,
             logs := s.logs ++ [Ev.roundStart (s.rounds + 1) s.actorTurn] }
  if s0.actorTurn then duelActorTurn env s0 else duelEnemyTurn env s0

/-- The while loop of simulate_duel, fuelled by the remaining rounds below
the cap; fuel plus rounds elapsed is MAX_ROUNDS throughout. -/
def duelLoop (env : DuelEnv) : Nat → DuelSt → DuelSt
  | 0, s => s
  | fuel + 1, s =>
      if s.actorHealth.state ≠ LifeState.Dead ∧ s.enemyHp > 0 then
        let s' := duelRound env s
        if s'.actorHealth.state = LifeState.Dead ∨ s'.enemyHp ≤ 0 then s'
        else duelLoop env fuel { s' with actorTurn := !s'.actorTurn }
      else s

def duelWinner (s : DuelSt) : String :=
  if s.enemyHp ≤ 0 ∧ s.actorHealth.hp > 0 then "actor"
  else if s.enemyHp ≤ 0 ∧ s.actorHealth.hp ≤ 0 then "draw"
  else if s.actorHealth.state = LifeState.Dead ∨ s.actorHealth.hp ≤ 0 then
    "enemy"
  else "draw"

/-- The immutable per-duel environment derived in the prologue of
simulate_duel. -/
def mkDuelEnv (cfg : DuelCfg) (target_attack : TargetAttack)
    (weapon : Weapon) : DuelEnv :=
  let actor := sample_fighter
  let actor_style :=
    if weapon.ranged then AttackStyle.Ranged else AttackStyle.Melee
  let actor_ability :=
    if weapon.ranged || weapon.finesse then Ability.Dex else Ability.Str
  { actor := actor, actor_ac := DEFAULT_ACTOR_AC, target := cfg.target,
    target_attack := target_attack,
    weapon_dice := weapon.versatile.getD weapon.dice,
    weapon_damage_type :=
      (match weapon.damage_type with
       | some dt => some dt
       | none => preset_damage_type weapon.name),
    style := actor_style,
    attack_bonus := actor.attack_bonus actor_ability true,
    damage_mod := actor.damage_mod actor_ability,
    resist := collect_damage_types cfg.target.resistances,
    vuln := collect_damage_types cfg.target.vulnerabilities,
    immune := collect_damage_types cfg.target.immunities }

/-- The initial duel state: starting-condition logs, initiative rolls, the
START and INIT banners. -/
def mkDuelSt0 (streamOf : Nat → Nat → Nat) (cfg : DuelCfg) : DuelSt :=
  let actor := sample_fighter
  let actor_hp := cfg.actor_hp.getD DEFAULT_ACTOR_HP
  let acondsInit := parse_condition_list cfg.actor_conditions
  let logs0 := acondsInit.map fun c => Ev.condStart "Actor" c.kind
  let econdsA := cfg.target.conditions.map make_active_condition
  let logs1 := logs0 ++
    cfg.target.conditions.map fun k => Ev.condStart cfg.target.name k
  let econdsB := parse_condition_list cfg.enemy_conditions
  let logs2 := logs1 ++
    econdsB.map fun c => Ev.condStart cfg.target.name c.kind
  let rng0 : Dice := { stream := streamOf (cfg.seed % 2 ^ 64), pos := 0 }
  let (ar, _, rng1) := rng0.d20 AdMode.Normal
  let actor_init := ar + actor.ability_mod Ability.Dex
  let (er, _, rng2) := rng1.d20 AdMode.Normal
  let enemy_init := er + cfg.target.dexterity_mod
  let actor_turn := actor_init ≥ enemy_init
  let logs3 := logs2 ++
    [Ev.startBanner DEFAULT_ACTOR_AC actor_hp cfg.target.name cfg.target.ac
       cfg.target.hp,
     Ev.initiative actor_init enemy_init actor_turn]
  { rng := rng2, logs := logs3, actorHealth := Health.new actor_hp,
    actorConds := acondsInit, enemyHp := cfg.target.hp,
    enemyConds := econdsA ++ econdsB, actorTurn := actor_turn, rounds := 0 }

/-- The duel after a target attack and weapon have been resolved. -/
def duelFullMk (streamOf : Nat → Nat → Nat) (cfg : DuelCfg)
    (target_attack : TargetAttack) (weapon : Weapon) : DuelFull :=
  let env := mkDuelEnv cfg target_attack weapon
  let sF := duelLoop env MAX_ROUNDS (mkDuelSt0 streamOf cfg)
  let winner := duelWinner sF
  { result :=
      { winner := winner, rounds := sF.rounds,
        actor_hp_end := sF.actorHealth.hp, enemy_hp_end := sF.enemyHp,
        log := sF.logs ++
          [Ev.endBanner winner sF.actorHealth.hp sF.enemyHp sF.rounds] }
    actorHealth := sF.actorHealth
    actorConds := sF.actorConds
    enemyConds := sF.enemyConds }

def simulate_duel (streamOf : Nat → Nat → Nat) (cfg : DuelCfg) :
    Option DuelFull :=
  match cfg.target.attacks.head? with
  | none => none
  | some target_attack =>
    match find_weapon cfg.weapons cfg.weapon with
    | none => none
    | some weapon => some (duelFullMk streamOf cfg target_attack weapon)

/-! ## Monte Carlo batch mode (engine/src/api.rs, simulate_duel_many) -/

/-- DuelStats.  The avg_rounds field of the source is the f32 quotient
sum_rounds / max samples 1; the model keeps the exact integral sum from which
it is computed. -/
structure DuelStats where
  samples : Nat
  actor_wins : Nat
  enemy_wins : Nat
  draws : Nat
  sum_rounds : Nat

/-- Samples i, i+1, ..., i+k-1 in order; any failing sample aborts the batch
exactly as the question-mark operator does in the source. -/
def duelManyFrom (streamOf : Nat → Nat → Nat) (cfg : DuelCfg) :
    Nat → Nat → Option (Nat × Nat × Nat × Nat)
  | _, 0 => some (0, 0, 0, 0)
  | i, k + 1 =>
      match simulate_duel streamOf
          { cfg with seed := (cfg.seed + i) % 2 ^ 64 } with
      | none => none
      | some out =>
          match duelManyFrom streamOf cfg (i + 1) k with
          | none => none
          | some (aw, ew, dr, sr) =>
              let w := out.result.winner
              some
                ((if w = "actor" then 1 else 0) + aw,
                 (if w = "enemy" then 1 else 0) + ew,
                 (if w ≠ "actor" ∧ w ≠ "enemy" then 1 else 0) + dr,
                 out.result.rounds + sr)

def simulate_duel_many (streamOf : Nat → Nat → Nat) (cfg : DuelCfg)
    (samples : Nat) : Option DuelStats :=
  match duelManyFrom streamOf cfg 0 samples with
  | none => none
  | some (aw, ew, dr, sr) =>
      some { samples := samples, actor_wins := aw, enemy_wins := ew,
             draws := dr, sum_rounds := sr }

/-! ## Encounter orchestrator (engine/src/api.rs, simulate_encounter) -/

structure EncounterData where
  name : String
  enemies : List TargetData

/-- The parsed encounter plus the parsed built-in weapon list (the weapons
JSON is a data file outside the engine sources); seed and overrides as in
EncounterConfig. -/
structure EncounterCfg where
  encounter : EncounterData
  weapons : List Weapon
  seed : Nat
  actor_hp : Option Int
  actor_conditions : List String

structure EnemyState where
  data : TargetData
  hp : Int
  resist : List DamageType
  vuln : List DamageType
  immune : List DamageType
  conditions : List ActiveCondition

structure EncounterResult where
  survived : Bool
  rounds : Nat
  remaining_enemies : Nat
  log : List Ev

structure EncFull where
  result : EncounterResult
  actorHealth : Health
  actorConds : List ActiveCondition
  enemies : List EnemyState

structure EncEnv where
  actor : Actor
  actor_ac : Int
  weapon_dice : DamageDice
  damage_type : DamageType
  style : AttackStyle
  attack_bonus : Int
  damage_mod : Int

/-- Mutable state threaded through one round apart from the enemy list. -/
structure EncTurnSt where
  rng : Dice
  logs : List Ev
  actorHealth : Health
  actorConds : List ActiveCondition

/-- The actor attacks the first living enemy in list order
(enemies.iter_mut().find(hp > 0)). -/
def encActorAttack (env : EncEnv) :
    List EnemyState → EncTurnSt → List EnemyState × EncTurnSt
  | [], st => ([], st)
  | e :: rest, st =>
      if e.hp > 0 then
        let cond_vantage :=
          vantage_from_conditions st.actorConds e.conditions env.style
        let final_mode :=
          ((AdMode.Normal.toVantage).combine cond_vantage).toAdMode
        let effective_ac := e.data.ac + e.data.cover.ac_bonus
        let logs1 := st.logs ++ [Ev.defense e.data.name e.data.ac e.data.cover]
        let (atk, d1) := attack st.rng final_mode env.attack_bonus effective_ac
        let logs2 := logs1 ++ [logAttack "Actor" atk]
        if atk.hit then
          let (raw, d2) := damage d1 env.weapon_dice env.damage_mod atk.is_crit
          let dmg :=
            adjust_damage_by_type raw env.damage_type e.resist e.vuln e.immune
          let before := e.hp
          let hp' := max (e.hp - dmg) 0
          let logs3 := logs2 ++
            [Ev.damageEv "Actor" env.weapon_dice env.damage_mod atk.is_crit dmg
               (some env.damage_type),
             Ev.hpChange e.data.name before hp'] ++
            (if hp' = 0 then [Ev.enemyDefeated e.data.name] else [])
          ({ e with hp := hp' } :: rest,
           { st with rng := d2, logs := logs3 })
        else
          (e :: rest,
           { st with rng := d1,
                     logs := logs2 ++ [Ev.hpNow e.data.name e.hp] })
      else
        let (rest', st') := encActorAttack env rest st
        (e :: rest', st')

/-- One enemy turn: start boundary, first-attack strike at the actor,
end boundary. -/
def encEnemyTurn (env : EncEnv) (e : EnemyState) (st : EncTurnSt) :
    EnemyState × EncTurnSt :=
  let (conds1, evs1, d1) :=
    process_turn_boundary TurnBoundary.StartOfTurn e.data.name e.conditions
      (enemySaveFn e.data) st.rng
  let st1 : EncTurnSt := { st with rng := d1, logs := st.logs ++ evs1 }
  let e1 : EnemyState := { e with conditions := conds1 }
  let st2 : EncTurnSt :=
    if e1.hp > 0 then
      match e1.data.attacks.head? with
      | some atk_spec =>
          let style :=
            if atk_spec.ranged then AttackStyle.Ranged else AttackStyle.Melee
          let cond_vantage :=
            vantage_from_conditions e1.conditions st1.actorConds style
          let final_mode := (Vantage.Normal.combine cond_vantage).toAdMode
          let logs2 := st1.logs ++ [Ev.defense "Actor" env.actor_ac Cover.CNone]
          let (atk, d2) := attack st1.rng final_mode atk_spec.to_hit env.actor_ac
          let logs3 := logs2 ++ [logAttack atk_spec.name atk]
          if atk.hit then
            let dtype := atk_spec.damage_type.getD DamageType.Slashing
            let (dmg, d3) := damage d2 atk_spec.dice 0 atk.is_crit
            let logs4 := logs3 ++
              [Ev.damageEv atk_spec.name atk_spec.dice 0 atk.is_crit dmg
                 (some dtype)]
            let (h1, aconds1, dropped, evs2) :=
              apply_damage "Actor" st1.actorHealth st1.actorConds dmg
            let logs5 := logs4 ++ evs2 ++ [Ev.hpNow "Actor" h1.hp] ++
              (if dropped then [Ev.itemDrop "Actor"] else [])
            let (aconds2, evs3, d4) :=
              match atk_spec.apply_condition with
              | some spec =>
                  maybe_apply_on_hit_condition "Actor" aconds1 spec
                    (actorSaveFn env.actor) d3
              | none => (aconds1, [], d3)
            { rng := d4, logs := logs5 ++ evs3, actorHealth := h1,
              actorConds := aconds2 }
          else { st1 with rng := d2, logs := logs3 }
      | none => st1
    else st1
  let (conds2, evs4, dF) :=
    process_turn_boundary TurnBoundary.EndOfTurn e1.data.name e1.conditions
      (enemySaveFn e1.data) st2.rng
  ({ e1 with conditions := conds2 },
   { st2 with rng := dF, logs := st2.logs ++ evs4 })

/-- The iter_mut loop over enemies: dead enemies are skipped. -/
def encEnemyTurns (env : EncEnv) :
    List EnemyState → EncTurnSt → List EnemyState × EncTurnSt
  | [], st => ([], st)
  | e :: rest, st =>
      if e.hp ≤ 0 then
        let (rest', st') := encEnemyTurns env rest st
        (e :: rest', st')
      else
        let (e', st') := encEnemyTurn env e st
        let (rest', st'') := encEnemyTurns env rest st'
        (e' :: rest', st'')

structure EncSt where
  rng : Dice
  logs : List Ev
  actorHealth : Health
  actorConds : List ActiveCondition
  enemies : List EnemyState
  rounds : Nat

def encRound (env : EncEnv) (s : EncSt) : EncSt :=
  let logs0 := s.logs ++ [Ev.roundStartEnc (s.rounds + 1)]
  let (h1, outcome, evs1, d1) :=
    process_death_save_start_of_turn "Actor" s.actorHealth plainD20 s.rng
  let logs1 := logs0 ++ evs1 ++
    (match outcome with
     | some o => [Ev.turnDeathSave o]
     | none => [])
  let (aconds1, evs2, d2) :=
    process_turn_boundary TurnBoundary.StartOfTurn "Actor" s.actorConds
      (actorSaveFn env.actor) d1
  let st0 : EncTurnSt :=
    { rng := d2, logs := logs1 ++ evs2, actorHealth := h1,
      actorConds := aconds1 }
  let (enemies1, st1) :=
    if h1.state = LifeState.Conscious then encActorAttack env s.enemies st0
    else (s.enemies, st0)
  let (aconds2, evs3, d3) :=
    process_turn_boundary TurnBoundary.EndOfTurn "Actor" st1.actorConds
      (actorSaveFn env.actor) st1.rng
  let st2 : EncTurnSt :=
    { rng := d3, logs := st1.logs ++ evs3, actorHealth := st1.actorHealth,
      actorConds := aconds2 }
  let (enemies2, st3) := encEnemyTurns env enemies1 st2
  { rng := st3.rng, logs := st3.logs, actorHealth := st3.actorHealth,
    actorConds := st3.actorConds, enemies := enemies2,
    rounds := s.rounds + 1 }

def encLoop (env : EncEnv) : Nat → EncSt → EncSt
  | 0, s => s
  | fuel + 1, s =>
      if s.actorHealth.state = LifeState.Dead ∨ s.actorHealth.hp ≤ 0 then s
      else if s.enemies.all fun e => e.hp ≤ 0 then s
      else encLoop env fuel (encRound env s)

/-- The immutable encounter environment derived from the resolved weapon. -/
def mkEncEnv (weapon : Weapon) : EncEnv :=
  let actor := sample_fighter
  let actor_ability :=
    if weapon.ranged || weapon.finesse then Ability.Dex else Ability.Str
  { actor := actor, actor_ac := DEFAULT_ACTOR_AC,
    weapon_dice := weapon.versatile.getD weapon.dice,
    damage_type :=
      (match weapon.damage_type with
       | some dt => some dt
       | none => preset_damage_type weapon.name).getD DamageType.Slashing,
    style := if weapon.ranged then AttackStyle.Ranged else AttackStyle.Melee,
    attack_bonus := actor.attack_bonus actor_ability true,
    damage_mod := actor.damage_mod actor_ability }

def encInitEnemy (t : TargetData) : EnemyState :=
  { data := t, hp := t.hp,
    resist := collect_damage_types t.resistances,
    vuln := collect_damage_types t.vulnerabilities,
    immune := collect_damage_types t.immunities,
    conditions := t.conditions.map make_active_condition }

def encCondLogs (l : List TargetData) : List Ev :=
  l.flatMap fun t => t.conditions.map fun k => Ev.condStart t.name k

def mkEncSt0 (streamOf : Nat → Nat → Nat) (cfg : EncounterCfg) : EncSt :=
  { rng := { stream := streamOf (cfg.seed % 2 ^ 64), pos := 0 },
    logs :=
      [Ev.encounterBanner cfg.encounter.name cfg.encounter.enemies.length] ++
        encCondLogs cfg.encounter.enemies,
    actorHealth := Health.new (cfg.actor_hp.getD DEFAULT_ACTOR_HP),
    actorConds := parse_condition_list cfg.actor_conditions,
    enemies := cfg.encounter.enemies.map encInitEnemy,
    rounds := 0 }

def encFullMk (streamOf : Nat → Nat → Nat) (cfg : EncounterCfg)
    (weapon : Weapon) : EncFull :=
  let env := mkEncEnv weapon
  let sF := encLoop env (MAX_ROUNDS * 4) (mkEncSt0 streamOf cfg)
  let remaining := (sF.enemies.filter fun e => e.hp > 0).length
  let survived :=
    sF.actorHealth.hp > 0 ∧ sF.actorHealth.state ≠ LifeState.Dead
  { result :=
      { survived := survived, rounds := sF.rounds,
        remaining_enemies := remaining,
        log := sF.logs ++
          [Ev.encounterEnd (decide survived) remaining sF.rounds] }
    actorHealth := sF.actorHealth
    actorConds := sF.actorConds
    enemies := sF.enemies }

def simulate_encounter (streamOf : Nat → Nat → Nat) (cfg : EncounterCfg) :
    Option EncFull :=
  if cfg.encounter.enemies.isEmpty then none
  else
    match find_weapon cfg.weapons "longsword" with
    | none => none
    | some weapon => some (encFullMk streamOf cfg weapon)

/-! ## CLI encounter subcommand (cli/src/main.rs, Cmd::Encounter)

The focus strategies first / lowest / random live here; the engine API
simulate_encounter has none.  Argument parsing, JSON loading and printing are
glue outside the core; the model starts from the resolved weapon numbers and
the parsed encounter.  The printed transcript is not modelled. -/

structure CliEnemy where
  name : String
  ac : Int
  hp : Int
  dex_mod : Int
  abilities : Option AbilityScores
  attacks : List TargetAttack
  resist : List DamageType
  vuln : List DamageType
  immune : List DamageType
  conditions : List ActiveCondition

def CliEnemy.dexterity_mod (e : CliEnemy) : Int :=
  match e.abilities with
  | some scores => scores.mod_of Ability.Dex
  | none => e.dex_mod

def cliEnemySaveFn (e : CliEnemy) : SaveFn := fun ability _dc d =>
  let (roll, _, d') := d.d20 AdMode.Normal
  let modifier :=
    match e.abilities with
    | some scores => scores.mod_of ability
    | none => if ability = Ability.Dex then e.dex_mod else 0
  ((roll, roll + modifier), d')

/-- Focus resolution: a file-level focus overrides the CLI default "first". -/
def resolveFocus (cliFocus fileFocus : String) : String :=
  let f := asciiLower cliFocus
  let ff := asciiLower fileFocus
  if f = "first" ∧ ff ≠ "first" then ff else f

/-- First element minimising the key under the strict order lt, replacing
only on strictly smaller keys exactly as Iterator::min_by_key does. -/
def minByKey {α β : Type} (lt : β → β → Bool) (key : α → β) :
    List α → Option α
  | [] => none
  | x :: xs =>
      match minByKey lt key xs with
      | none => some x
      | some a => if lt (key a) (key x) then some a else some x

/-- Lexicographic strict order on pairs of integers. -/
def ltLexII (p q : Int × Int) : Bool :=
  p.1 < q.1 || (p.1 = q.1 && p.2 < q.2)

/-- select_enemy_target: alive (index, hp) pairs; "lowest" minimises
(hp, index), "random" draws one die, anything else minimises the index. -/
def select_enemy_target (strategy : String) (enemies : List CliEnemy)
    (rng : Dice) : Option Nat × Dice :=
  let alive :=
    (enemies.enum.filter fun p => p.2.hp > 0).map fun p => (p.1, p.2.hp)
  if alive.isEmpty then (none, rng)
  else
    match strategy with
    | "lowest" =>
        ((minByKey ltLexII (fun p : Nat × Int => (p.2, (p.1 : Int))) alive).map
           fun p => p.1, rng)
    | "random" =>
        let len := alive.length
        let sides := min len 255
        let (dv, rng') := rng.die sides
        let roll := dv - 1
        let choice := min roll (len - 1)
        ((alive.get? choice).map fun p => p.1, rng')
    | _ =>
        ((minByKey (fun a b : Nat => decide (a < b)) (fun p : Nat × Int => p.1)
            alive).map fun p => p.1, rng)

structure InitEntry where
  total : Int
  roll : Int
  kind : Nat
  index : Nat
deriving DecidableEq, Repr

/-- The initiative comparator: total descending, raw roll descending, actor
before enemies, then original index.  As a boolean less-or-equal. -/
def initLe (a b : InitEntry) : Bool :=
  if a.total ≠ b.total then b.total < a.total
  else if a.roll ≠ b.roll then b.roll < a.roll
  else if a.kind ≠ b.kind then a.kind < b.kind
  else a.index ≤ b.index

def insertSorted {α : Type} (le : α → α → Bool) (x : α) :
    List α → List α
  | [] => [x]
  | y :: ys => if le x y then x :: y :: ys else y :: insertSorted le x ys

/-- Sorting for the initiative order.  The comparator is antisymmetric on the
entries built here (kind and index make keys unique), so the stable sort_by
of the source and this insertion sort agree. -/
def sortByLe {α : Type} (le : α → α → Bool) : List α → List α
  | [] => []
  | x :: xs => insertSorted le x (sortByLe le xs)

structure CliEnv where
  actor : Actor
  actor_ac : Int
  mode : AdMode
  style : AttackStyle
  dmg_spec : DamageDice
  dtype : DamageType
  attack_bonus : Int
  damage_mod : Int
  focus : String
  max_rounds : Nat

structure CliSt where
  rng : Dice
  actorHealth : Health
  actorConds : List ActiveCondition
  enemies : List CliEnemy
  autoPotionLeft : Bool

/-- The actor entry of one round.  Also returns the target index chosen by
select_enemy_target on the current enemy list (None when no attack step ran). -/
def cliActorTurn (env : CliEnv) (s : CliSt) : CliSt × Option Nat :=
  let (h1, _, _, d1) :=
    process_death_save_start_of_turn "Actor" s.actorHealth plainD20 s.rng
  let (aconds1, _, d2) :=
    process_turn_boundary TurnBoundary.StartOfTurn "Actor" s.actorConds
      (actorSaveFn env.actor) d1
  let (mid, chosen) :=
    match h1.state with
    | LifeState.Conscious =>
        let (sel, d3) := select_enemy_target env.focus s.enemies d2
        match sel with
        | some target_idx =>
            match s.enemies.get? target_idx with
            | some e =>
                if e.hp > 0 then
                  let cond_vantage :=
                    vantage_from_conditions aconds1 e.conditions env.style
                  let final_mode :=
                    ((env.mode.toVantage).combine cond_vantage).toAdMode
                  let (atk, d4) := attack d3 final_mode env.attack_bonus e.ac
                  if atk.hit then
                    let (raw, d5) :=
                      damage d4 env.dmg_spec env.damage_mod atk.is_crit
                    let dmg :=
                      adjust_damage_by_type raw env.dtype e.resist e.vuln
                        e.immune
                    let e' := { e with hp := max (e.hp - dmg) 0 }
                    ({ s with rng := d5, actorHealth := h1,
                              actorConds := aconds1,
                              enemies := s.enemies.set target_idx e' },
                     some target_idx)
                  else
                    ({ s with rng := d4, actorHealth := h1,
                              actorConds := aconds1 }, some target_idx)
                else
                  ({ s with rng := d3, actorHealth := h1,
                            actorConds := aconds1 }, some target_idx)
            | none =>
                ({ s with rng := d3, actorHealth := h1,
                          actorConds := aconds1 }, none)
        | none =>
            ({ s with rng := d3, actorHealth := h1, actorConds := aconds1 },
             none)
    | _ => ({ s with rng := d2, actorHealth := h1, actorConds := aconds1 },
            none)
  let (aconds2, _, dF) :=
    process_turn_boundary TurnBoundary.EndOfTurn "Actor" mid.actorConds
      (actorSaveFn env.actor) mid.rng
  ({ mid with rng := dF, actorConds := aconds2 }, chosen)

/-- One enemy entry of one round (kind 1, by original index). -/
def cliEnemyTurn (env : CliEnv) (idx : Nat) (s : CliSt) : CliSt :=
  match s.enemies.get? idx with
  | none => s
  | some e =>
      if e.hp ≤ 0 then s
      else
        let (conds1, _, d1) :=
          process_turn_boundary TurnBoundary.StartOfTurn e.name e.conditions
            (cliEnemySaveFn e) s.rng
        let e1 := { e with conditions := conds1 }
        let s1 := { s with rng := d1, enemies := s.enemies.set idx e1 }
        let s2 :=
          match e1.attacks.head? with
          | some atk_spec =>
              let style :=
                if atk_spec.ranged then AttackStyle.Ranged
                else AttackStyle.Melee
              let cond_vantage :=
                vantage_from_conditions e1.conditions s1.actorConds style
              let final_mode := (Vantage.Normal.combine cond_vantage).toAdMode
              let (atk, d2) :=
                attack s1.rng final_mode atk_spec.to_hit env.actor_ac
              if atk.hit then
                let (dmg, d3) := damage d2 atk_spec.dice 0 atk.is_crit
                let (h1, aconds1, dropped, _) :=
                  apply_damage "Actor" s1.actorHealth s1.actorConds dmg
                let (h2, potUsed) :=
                  if dropped ∧ s1.autoPotionLeft then
                    ((heal "Actor" h1 7).1, true)
                  else (h1, false)
                let (aconds2, _, d4) :=
                  match atk_spec.apply_condition with
                  | some spec =>
                      maybe_apply_on_hit_condition "Actor" aconds1 spec
                        (actorSaveFn env.actor) d3
                  | none => (aconds1, [], d3)
                { s1 with rng := d4, actorHealth := h2,
                          actorConds := aconds2,
                          autoPotionLeft :=
                            s1.autoPotionLeft && !potUsed }
              else { s1 with rng := d2 }
          | none => s1
        let e2 :=
          match s2.enemies.get? idx with
          | some ecur => ecur
          | none => e1
        let (conds2, _, dF) :=
          process_turn_boundary TurnBoundary.EndOfTurn e2.name e2.conditions
            (cliEnemySaveFn e2) s2.rng
        { s2 with rng := dF,
                  enemies := s2.enemies.set idx { e2 with conditions := conds2 } }

def cliEnemiesDefeated (s : CliSt) : Bool :=
  s.enemies.all fun e => e.hp ≤ 0

/-- The for loop over initiative entries, with the mid-round break when the
actor is dead or every enemy is down. -/
def cliRunEntries (env : CliEnv) : List InitEntry → CliSt → CliSt
  | [], s => s
  | entry :: rest, s =>
      if s.actorHealth.state = LifeState.Dead ∨ cliEnemiesDefeated s then s
      else
        let s' :=
          if entry.kind = 0 then (cliActorTurn env s).1
          else cliEnemyTurn env entry.index s
        cliRunEntries env rest s'

/-- The while loop over rounds (round starts at 1; fuel counts the rounds
still allowed by max_rounds). -/
def cliRounds (env : CliEnv) (initiative : List InitEntry) :
    Nat → CliSt → CliSt
  | 0, s => s
  | fuel + 1, s =>
      if s.actorHealth.state = LifeState.Dead ∨ cliEnemiesDefeated s then s
      else cliRounds env initiative fuel (cliRunEntries env initiative s)

/-- The encounter subcommand combat phase, from Dice::from_seed onward. -/
def cliEncounter (streamOf : Nat → Nat → Nat) (env : CliEnv) (seed : Nat)
    (enemies : List CliEnemy) (actor_hp : Int)
    (actor_conditions : List ActiveCondition) (auto_potion : Bool) : CliSt :=
  let rng0 : Dice := { stream := streamOf (seed % 2 ^ 64), pos := 0 }
  let actor_dex_mod := env.actor.ability_mod Ability.Dex
  let (ar, _, rng1) := rng0.d20 AdMode.Normal
  let actorEntry : InitEntry :=
    { total := ar + actor_dex_mod, roll := ar, kind := 0, index := 0 }
  let rec rollEnemies : List CliEnemy → Nat → Dice → List InitEntry × Dice
    | [], _, d => ([], d)
    | e :: rest, i, d =>
        let (r, _, d') := d.d20 AdMode.Normal
        let (tl, d'') := rollEnemies rest (i + 1) d'
        ({ total := r + e.dexterity_mod, roll := r, kind := 1,
           index := i } :: tl, d'')
  let (enemyEntries, rng2) := rollEnemies enemies 0 rng1
  let initiative := sortByLe initLe (actorEntry :: enemyEntries)
  let s0 : CliSt :=
    { rng := rng2, actorHealth := Health.new actor_hp,
      actorConds := actor_conditions, enemies := enemies,
      autoPotionLeft := auto_potion }
  cliRounds env initiative env.max_rounds s0

/-! ## Claim C4: adjust_damage_by_type -/

theorem log2fuel_le_of_lt (f : Nat) :
    ∀ n k : Nat, n < 2 ^ (k + 1) → log2fuel f n ≤ k := by
  induction f with
  | zero => intro n k _; simp [log2fuel]
  | succ f ih =>
      intro n k hn
      simp only [log2fuel]
      split
      · rename_i h2
        cases k with
        | zero => omega
        | succ k' =>
            have hdiv : n / 2 < 2 ^ (k' + 1) := by
              have : n < 2 ^ (k' + 1) * 2 := by
                have : 2 ^ (k' + 1 + 1) = 2 ^ (k' + 1) * 2 := by ring
                omega
              omega
            have := ih (n / 2) k' hdiv
            omega
      · omega

theorem f32roundNat_eq_of_le (n : Nat) (h : n ≤ 2 ^ 24) : f32roundNat n = n := by
  rcases Nat.lt_or_ge n (2 ^ 24) with hlt | hge
  · have he : log2_32 n ≤ 23 := log2fuel_le_of_lt 32 n 23 hlt
    simp [f32roundNat, he]
  · have : n = 2 ^ 24 := le_antisymm h hge
    subst this
    decide

theorem f32ofInt_eq_of_le (x : Int) (h : x.natAbs ≤ 2 ^ 24) : f32ofInt x = x := by
  unfold f32ofInt
  split
  · rename_i hx
    rw [f32roundNat_eq_of_le x.toNat (by omega)]
    omega
  · rename_i hx
    rw [f32roundNat_eq_of_le (-x).toNat (by omega)]
    omega

theorem i32wrap_eq_of_range (x : Int) (h1 : -(2 ^ 31) ≤ x) (h2 : x < 2 ^ 31) :
    i32wrap x = x := by
  unfold i32wrap
  have : (x + 2 ^ 31) % 2 ^ 32 = x + 2 ^ 31 :=
    Int.emod_eq_of_lt (by omega) (by omega)
  omega

/-- C4 counterexample: the claim quantifies over every integer base, but the
resistant branch computes (base as f32 / 2.0).floor() as i32, and the i32 to
f32 conversion is inexact above 2^24.  At base 16777219 (resistant only) the
source returns 8388610 while floor(base / 2) is 8388609. -/
theorem adjust_damage_f32_counterexample :
    adjust_damage_by_type 16777219 DamageType.Fire [DamageType.Fire] [] [] =
        8388610 ∧
      Int.fdiv 16777219 2 = 8388609 ∧
      adjust_damage_by_type 16777219 DamageType.Fire [DamageType.Fire] [] [] ≠
        Int.fdiv 16777219 2 := by
  refine ⟨by decide, by decide, by decide⟩

/-- C4 (amended): for bases in the f32-exact range (natAbs at most 2^24,
which also keeps base * 2 inside i32), adjust_damage_by_type is: immune gives
0 regardless of the other sets; resistant and vulnerable together give base
unchanged; resistant only gives floor(base / 2); vulnerable only gives
base * 2; membership in no set gives base unchanged. -/
theorem adjust_damage_by_type_spec (base : Int) (dtype : DamageType)
    (resist vuln immune : List DamageType) (hb : base.natAbs ≤ 2 ^ 24) :
    (dtype ∈ immune → adjust_damage_by_type base dtype resist vuln immune = 0) ∧
    (dtype ∉ immune → dtype ∈ resist → dtype ∈ vuln →
      adjust_damage_by_type base dtype resist vuln immune = base) ∧
    (dtype ∉ immune → dtype ∈ resist → dtype ∉ vuln →
      adjust_damage_by_type base dtype resist vuln immune = Int.fdiv base 2) ∧
    (dtype ∉ immune → dtype ∉ resist → dtype ∈ vuln →
      adjust_damage_by_type base dtype resist vuln immune = base * 2) ∧
    (dtype ∉ immune → dtype ∉ resist → dtype ∉ vuln →
      adjust_damage_by_type base dtype resist vuln immune = base) := by
  refine ⟨?_, ?_, ?_, ?_, ?_⟩
  · intro hi; simp [adjust_damage_by_type, hi]
  · intro hi hr hv; simp [adjust_damage_by_type, hi, hr, hv]
  · intro hi hr hv
    simp [adjust_damage_by_type, hi, hr, hv, f32ofInt_eq_of_le base hb]
  · intro hi hr hv
    have hw : adjust_damage_by_type base dtype resist vuln immune =
        i32wrap (base * 2) := by
      simp [adjust_damage_by_type, hi, hr, hv]
    rw [hw]
    exact i32wrap_eq_of_range (base * 2) (by omega) (by omega)
  · intro hi hr hv; simp [adjust_damage_by_type, hi, hr, hv]

theorem adjust_damage_by_type_spec_witness :
    adjust_damage_by_type 7 DamageType.Fire [DamageType.Fire] [] [] =
      Int.fdiv 7 2 :=
  (adjust_damage_by_type_spec 7 DamageType.Fire [DamageType.Fire] [] []
      (by decide)).2.2.1 (by decide) (by decide) (by decide)

/-! ## Claim C5: damage dice counts and bounds -/

theorem rollDice_spec (sides : Nat) (hs : 1 ≤ sides) :
    ∀ (n : Nat) (d : Dice),
      n ≤ (rollDice n sides d).1 ∧ (rollDice n sides d).1 ≤ n * sides ∧
        (rollDice n sides d).2.pos = d.pos + n := by
  intro n
  induction n with
  | zero => intro d; simp [rollDice]
  | succ n ih =>
      intro d
      have hdie : 1 ≤ (d.die sides).1 ∧ (d.die sides).1 ≤ sides := by
        constructor
        · simp [Dice.die]
        · simp only [Dice.die]
          have : d.stream d.pos % sides < sides := Nat.mod_lt _ (by omega)
          omega
      have hpos : (d.die sides).2.pos = d.pos + 1 := by simp [Dice.die]
      obtain ⟨ih1, ih2, ih3⟩ := ih (d.die sides).2
      simp only [rollDice]
      refine ⟨by omega, ?_, by omega⟩
      have : (n + 1) * sides = sides + n * sides := by ring
      omega

/-- C5 counterexample: the claim quantifies over every DamageDice, but the
crit doubling saturates the u8 count.  At count 128 a crit rolls
min (2 * 128) 255 = 255 dice, not 256, and with one-sided dice and modifier 0
the total is 255, below the claimed lower bound 2 * count + modifier = 256. -/
theorem damage_crit_saturation_counterexample :
    (damage { stream := fun _ => 0, pos := 0 }
        { count := 128, sides := 1 } 0 true).1 = 255 ∧
      (damage { stream := fun _ => 0, pos := 0 }
          { count := 128, sides := 1 } 0 true).2.pos = 255 ∧
      ¬ ((2 * 128 + 0 : Int) ≤
          (damage { stream := fun _ => 0, pos := 0 }
              { count := 128, sides := 1 } 0 true).1) := by
  refine ⟨by decide, by decide, by decide⟩

/-- C5 (amended): for counts up to 127 (where the u8 saturating doubling is
exact) and at least one side per die, a crit damage roll consumes exactly
2 * count dice and lies in [2 * count + modifier, 2 * count * sides +
modifier]; a normal roll consumes exactly count dice and lies in
[count + modifier, count * sides + modifier]; each individual die is in
1..sides; the modifier enters exactly once. -/
theorem damage_eq (d : Dice) (spec : DamageDice) (m : Int) (c : Bool) :
    damage d spec m c =
      (((spec.roll_total d c).1 : Int) + m, (spec.roll_total d c).2) := by
  rcases h : spec.roll_total d c with ⟨s, d2⟩
  simp [damage, h]

theorem roll_total_true (d : Dice) (spec : DamageDice) :
    spec.roll_total d true =
      rollDice (min (2 * spec.count) 255) spec.sides d := rfl

theorem roll_total_false (d : Dice) (spec : DamageDice) :
    spec.roll_total d false = rollDice spec.count spec.sides d := rfl

/-- C5 (amended): for counts up to 127 (where the u8 saturating doubling is
exact) and at least one side per die, a crit damage roll consumes exactly
2 * count dice and lies in [2 * count + modifier, 2 * count * sides +
modifier]; a normal roll consumes exactly count dice and lies in
[count + modifier, count * sides + modifier]; each individual die is in
1..sides; the modifier enters exactly once. -/
theorem damage_dice_spec (count sides : Nat) (modifier : Int) (d : Dice)
    (hs : 1 ≤ sides) (hc : count ≤ 127) :
    ((damage d { count := count, sides := sides } modifier true).2.pos =
        d.pos + 2 * count) ∧
    ((2 * count : Int) + modifier ≤
        (damage d { count := count, sides := sides } modifier true).1) ∧
    ((damage d { count := count, sides := sides } modifier true).1 ≤
        2 * (count : Int) * (sides : Int) + modifier) ∧
    ((damage d { count := count, sides := sides } modifier false).2.pos =
        d.pos + count) ∧
    ((count : Int) + modifier ≤
        (damage d { count := count, sides := sides } modifier false).1) ∧
    ((damage d { count := count, sides := sides } modifier false).1 ≤
        (count : Int) * (sides : Int) + modifier) ∧
    (∀ d' : Dice, 1 ≤ (d'.die sides).1 ∧ (d'.die sides).1 ≤ sides) := by
  have hmin : min (2 * count) 255 = 2 * count := by omega
  obtain ⟨hc1, hc2, hc3⟩ := rollDice_spec sides hs (2 * count) d
  obtain ⟨hn1, hn2, hn3⟩ := rollDice_spec sides hs count d
  simp only [damage_eq, roll_total_true, roll_total_false, hmin]
  refine ⟨hc3, ?_, ?_, hn3, ?_, ?_, ?_⟩
  · omega
  · have h2 : ((rollDice (2 * count) sides d).1 : Int) ≤
        2 * (count : Int) * (sides : Int) := by
      have : ((rollDice (2 * count) sides d).1 : Int) ≤
          ((2 * count * sides : Nat) : Int) := by exact_mod_cast hc2
      push_cast at this
      linarith
    omega
  · omega
  · have h2 : ((rollDice count sides d).1 : Int) ≤
        (count : Int) * (sides : Int) := by
      have : ((rollDice count sides d).1 : Int) ≤
          ((count * sides : Nat) : Int) := by exact_mod_cast hn2
      push_cast at this
      linarith
    omega
  · intro d'
    constructor
    · simp [Dice.die]
    · simp only [Dice.die]
      have : d'.stream d'.pos % sides < sides := Nat.mod_lt _ (by omega)
      omega

theorem damage_dice_spec_witness :
    (damage { stream := fun _ => 0, pos := 0 }
        { count := 1, sides := 8 } 3 true).2.pos = 0 + 2 * 1 :=
  (damage_dice_spec 1 8 3 { stream := fun _ => 0, pos := 0 }
      (by decide) (by decide)).1

/-! ## Claim C7: apply_damage on the Dead -/

/-- C7: apply_damage on a Dead combatant is a no-op for every damage amount:
health (HP, life state, death tally) and conditions unchanged, no drop
reported, nothing logged. -/
theorem apply_damage_dead_noop (name : String) (h : Health)
    (conds : List ActiveCondition) (dmg : Int)
    (hd : h.state = LifeState.Dead) :
    apply_damage name h conds dmg = (h, conds, false, []) := by
  simp [apply_damage, hd]

theorem apply_damage_dead_noop_witness :
    apply_damage "Hero"
        { hp := 0, max_hp := 10, state := LifeState.Dead,
          death := { successes := 1, failures := 3 } }
        [make_active_condition ConditionKind.Prone] 5 =
      ({ hp := 0, max_hp := 10, state := LifeState.Dead,
         death := { successes := 1, failures := 3 } },
       [make_active_condition ConditionKind.Prone], false, []) :=
  apply_damage_dead_noop "Hero" _ _ 5 rfl

/-! ## Claim C6: death saves -/

/-- C6: from Unconscious (not stable) at exactly 0 HP, a natural 20 sets HP
to 1, resets the tally and wakes to Conscious; a natural 1 adds two failures
saturating at 3 and reaches Dead in one call whenever failures were already
at least 1; outside the qualifying state the call returns None, rolls no die
(dice state unchanged) and changes nothing. -/
theorem process_death_save_spec (name : String) (h : Health)
    (d20 : Dice → Int × Dice) (d : Dice) :
    (h.state = LifeState.Unconscious false → h.hp = 0 → (d20 d).1 = 20 →
      (process_death_save_start_of_turn name h d20 d).1.hp = 1 ∧
        (process_death_save_start_of_turn name h d20 d).1.state =
          LifeState.Conscious ∧
        (process_death_save_start_of_turn name h d20 d).1.death =
          DeathSaves.default) ∧
    (h.state = LifeState.Unconscious false → h.hp = 0 → (d20 d).1 = 1 →
      (process_death_save_start_of_turn name h d20 d).1.death.failures =
          min (h.death.failures + 2) 3 ∧
        (1 ≤ h.death.failures →
          (process_death_save_start_of_turn name h d20 d).1.state =
            LifeState.Dead)) ∧
    (¬ (h.state = LifeState.Unconscious false ∧ h.hp = 0) →
      process_death_save_start_of_turn name h d20 d = (h, none, [], d)) := by
  refine ⟨?_, ?_, ?_⟩
  · intro hstate hhp hroll
    rcases hd : d20 d with ⟨roll, d'⟩
    rw [hd] at hroll
    simp only at hroll
    subst hroll
    simp [process_death_save_start_of_turn, hstate, hhp, hd,
      DeathSaves.default]
  · intro hstate hhp hroll
    rcases hd : d20 d with ⟨roll, d'⟩
    rw [hd] at hroll
    simp only at hroll
    subst hroll
    by_cases hf : min (h.death.failures + 2) 3 ≥ 3
    · constructor
      · simp [process_death_save_start_of_turn, hstate, hhp, hd, hf]
      · intro _
        simp [process_death_save_start_of_turn, hstate, hhp, hd, hf]
    · constructor
      · by_cases hsucc : h.death.successes ≥ 3
        · simp [process_death_save_start_of_turn, hstate, hhp, hd, hf, hsucc]
        · simp [process_death_save_start_of_turn, hstate, hhp, hd, hf, hsucc]
      · intro hone
        exact absurd (by omega) hf
  · intro hn
    cases hs : h.state with
    | Conscious => simp [process_death_save_start_of_turn, hs]
    | Dead => simp [process_death_save_start_of_turn, hs]
    | Unconscious stable =>
        cases stable with
        | true => simp [process_death_save_start_of_turn, hs]
        | false =>
            have hhp : ¬ h.hp = 0 := fun hc => hn ⟨hs, hc⟩
            simp [process_death_save_start_of_turn, hs, hhp]

theorem process_death_save_spec_witness :
    (process_death_save_start_of_turn "Hero"
        { hp := 0, max_hp := 10, state := LifeState.Unconscious false,
          death := DeathSaves.default }
        (fun d => (20, d)) { stream := fun _ => 0, pos := 0 }).1.hp = 1 :=
  ((process_death_save_spec "Hero" _ _ _).1 rfl rfl rfl).1

/-! ## Claim C8: DC 0 save-ends conditions vanish at the first end of turn -/

theorem processSaves_marks (who : String) (sfn : SaveFn)
    (c : ActiveCondition) (ab : Ability)
    (hse : c.save_ends_each_turn = true)
    (hes : c.end_save = some { ability := ab, dc := 0 })
    (hfn : ∀ (a : Ability) (dc : Int) (d' : Dice), 0 ≤ ((sfn a dc d').1).2) :
    ∀ (l : List ActiveCondition) (d : Dice)
      (p : ActiveCondition × Bool),
      p ∈ (processSaves who sfn l d).1 → p.1 = c → p.2 = true := by
  intro l
  induction l with
  | nil => intro d p hp; simp [processSaves] at hp
  | cons x rest ih =>
      intro d p hp hpc
      by_cases hx : x.save_ends_each_turn
      · cases hxe : x.end_save with
        | none =>
            rw [processSaves] at hp
            simp only [hx, if_true, hxe] at hp
            rcases List.mem_cons.mp hp with hhead | htail
            · subst hhead
              simp only at hpc
              subst hpc
              rw [hes] at hxe
              cases hxe
            · exact ih _ p htail hpc
        | some sv =>
            rw [processSaves] at hp
            rcases hsf : sfn sv.ability sv.dc d with ⟨⟨roll, total⟩, d'⟩
            simp only [hx, if_true, hxe, hsf] at hp
            rcases List.mem_cons.mp hp with hhead | htail
            · subst hhead
              simp only at hpc ⊢
              subst hpc
              rw [hes] at hxe
              cases hxe
              have h0 : 0 ≤ total := by
                have h1 := hfn ab 0 d
                rw [show sfn ab 0 d = ((roll, total), d') from hsf] at h1
                simpa using h1
              exact decide_eq_true h0
            · exact ih _ p htail hpc
      · rw [processSaves] at hp
        simp only [hx, if_false, Bool.false_eq_true] at hp
        rcases List.mem_cons.mp hp with hhead | htail
        · subst hhead
          simp only at hpc
          subst hpc
          rw [hse] at hx
          exact absurd rfl hx
        · exact ih _ p htail hpc

/-- C8: an active condition with save_ends_each_turn set and an ending save
of DC 0 is removed from the list by the very first end-of-turn boundary
call, provided the saving-throw totals are non-negative (a non-negative
total always meets DC 0). -/
theorem save_ends_dc0_removed (who : String) (conds : List ActiveCondition)
    (sfn : SaveFn) (d : Dice) (c : ActiveCondition) (ab : Ability)
    (_hc : c ∈ conds) (hse : c.save_ends_each_turn = true)
    (hes : c.end_save = some { ability := ab, dc := 0 })
    (hfn : ∀ (a : Ability) (dc : Int) (d' : Dice), 0 ≤ ((sfn a dc d').1).2) :
    c ∉ (process_turn_boundary TurnBoundary.EndOfTurn who conds sfn d).1 := by
  intro hmem
  unfold process_turn_boundary at hmem
  simp only at hmem
  have hmem1 := (List.mem_filter.mp hmem).1
  rcases List.mem_map.mp hmem1 with ⟨p, hpf, hp1⟩
  have hp2 := (List.mem_filter.mp hpf).2
  have := processSaves_marks who sfn c ab hse hes hfn conds d p
    (List.mem_filter.mp hpf).1 hp1
  simp [this] at hp2

theorem save_ends_dc0_removed_witness :
    { kind := ConditionKind.Poisoned, save_ends_each_turn := true,
      end_phase := none,
      end_save := some { ability := Ability.Con, dc := 0 },
      pending_one_turn := false : ActiveCondition } ∉
      (process_turn_boundary TurnBoundary.EndOfTurn "Tester"
          [{ kind := ConditionKind.Poisoned, save_ends_each_turn := true,
             end_phase := none,
             end_save := some { ability := Ability.Con, dc := 0 },
             pending_one_turn := false }]
          (fun _ _ d => ((15, 15), d))
          { stream := fun _ => 0, pos := 0 }).1 :=
  save_ends_dc0_removed "Tester" _ _ _ _ Ability.Con (List.mem_singleton.mpr rfl)
    rfl rfl (fun _ _ _ => by norm_num)

/-! ## Claim C1: one record per condition kind -/

/-- No two records of the same kind in a condition list. -/
def kindsNodup (conds : List ActiveCondition) : Prop :=
  (conds.map fun c => c.kind).Nodup

theorem kindsNodup_push (conds : List ActiveCondition) (c : ActiveCondition)
    (hnd : kindsNodup conds)
    (hnot : ¬ (conds.any fun x => x.kind = c.kind) = true) :
    kindsNodup (conds ++ [c]) := by
  unfold kindsNodup at *
  rw [List.map_append, List.nodup_append]
  refine ⟨hnd, List.nodup_singleton _, ?_⟩
  intro k hk hk2
  simp only [List.map_cons, List.map_nil, List.mem_singleton] at hk2
  subst hk2
  rcases List.mem_map.mp hk with ⟨x, hx, hxk⟩
  exact hnot (List.any_eq_true.mpr ⟨x, hx, decide_eq_true hxk⟩)

def biteSpecC1 : ConditionSpec :=
  { kind := ConditionKind.Poisoned,
    save := some { ability := Ability.Con, dc := 25 },
    duration := { until_ := none, save_ends_each_turn := false } }

def biteC1 : TargetAttack :=
  { name := "bite", to_hit := 0, dice := { count := 1, sides := 1 },
    damage_type := some DamageType.Poison, ranged := false,
    apply_condition := some biteSpecC1 }

def tgtC1 : TargetData :=
  { name := "Gob", ac := 30, hp := 5, dex_mod := 0, abilities := none,
    attacks := [biteC1],
    resistances := [], vulnerabilities := [], immunities := [],
    conditions := [], cover := Cover.CNone }

def swordC1 : Weapon :=
  { name := "sword", dice := { count := 1, sides := 1 }, finesse := false,
    ranged := false, versatile := none,
    damage_type := some DamageType.Slashing }

def cfgC1 : DuelCfg :=
  { target := tgtC1,
    weapons := [swordC1],
    weapon := "sword", actor_conditions := [], enemy_conditions := [],
    seed := 0, actor_hp := none }

/-- C1 counterexample: a reachable simulate_duel state in which the actor
holds fifteen Poisoned records simultaneously.  The enemy attack applies
Poisoned (save DC 25) on every hit, and maybe_apply_on_hit_condition pushes a
fresh record without checking for an existing one; with every d20 equal to 19
the attack hits and the save fails on each of the fifteen enemy turns. -/
theorem on_hit_condition_duplicates_counterexample :
    ((simulate_duel (fun _ _ => 18) cfgC1).map fun f =>
      f.actorConds.countP fun c => c.kind = ConditionKind.Poisoned) =
      some 15 := by
  decide

/-- C1 (amended): the check-then-push sources keep the per-kind invariant:
drop-to-0 Prone application inside apply_damage, attempt_grapple and
attempt_shove_prone all preserve a duplicate-free condition list.  On-hit
application (maybe_apply_on_hit_condition), by contrast, appends a fresh
record even when the kind is already present, so duplicates of a kind are
reachable (see the counterexample). -/
theorem condition_sources_idempotent (name : String) (h : Health)
    (conds : List ActiveCondition) (dmg : Int) (an dn : String)
    (asm dsm ddm : Int) (d20 : Dice → Int × Dice) (d : Dice)
    (hnd : kindsNodup conds) :
    kindsNodup (apply_damage name h conds dmg).2.1 ∧
    kindsNodup (attempt_grapple an asm dn dsm ddm conds d20 d).2.1 ∧
    kindsNodup (attempt_shove_prone an asm dn dsm ddm conds d20 d).2.1 := by
  refine ⟨?_, ?_, ?_⟩
  · by_cases hdead : h.state = LifeState.Dead
    · simp [apply_damage, hdead, hnd]
    · simp only [apply_damage, if_neg hdead]
      split_ifs with h1 h2
      · exact hnd
      · exact kindsNodup_push conds _ hnd (by simpa using h2)
      · exact hnd
  · unfold attempt_grapple
    rcases hcc : contested_check d20 asm (best_of_str_dex dsm ddm).2
        (an ++ " (STR)") (dn ++ " (best STR/DEX)") d with ⟨outcome, evs, d'⟩
    simp only [hcc]
    cases outcome with
    | AttackerWins =>
        by_cases hg : (conds.any fun c => c.kind = ConditionKind.Grappled) =
            true
        · simp [hg, hnd]
        · simp only [if_neg hg]
          exact kindsNodup_push conds _ hnd hg
    | DefenderWins => exact hnd
    | TieDefender => exact hnd
  · unfold attempt_shove_prone
    rcases hcc : contested_check d20 asm (best_of_str_dex dsm ddm).2
        (an ++ " (STR)") (dn ++ " (best STR/DEX)") d with ⟨outcome, evs, d'⟩
    simp only [hcc]
    cases outcome with
    | AttackerWins =>
        by_cases hg : (conds.any fun c => c.kind = ConditionKind.Prone) = true
        · simp [hg, hnd]
        · simp only [if_neg hg]
          exact kindsNodup_push conds _ hnd hg
    | DefenderWins => exact hnd
    | TieDefender => exact hnd

theorem condition_sources_idempotent_witness :
    kindsNodup (apply_damage "Hero"
        { hp := 3, max_hp := 10, state := LifeState.Conscious,
          death := DeathSaves.default }
        [make_active_condition ConditionKind.Poisoned] 5).2.1 :=
  (condition_sources_idempotent "Hero" _ _ 5 "A" "D" 3 0 0
      (fun d => (10, d)) { stream := fun _ => 0, pos := 0 }
      (by simp [kindsNodup, make_active_condition])).1

/-! ## Claim C2: duel winner determination -/

/-- The only way to be Dead is at 0 HP (death saves fire at 0 HP and nothing
revives the Dead). -/
def deadZero (h : Health) : Prop := h.state = LifeState.Dead → h.hp = 0

theorem deadZero_apply_damage (name : String) (h : Health)
    (conds : List ActiveCondition) (dmg : Int) (hdz : deadZero h) :
    deadZero (apply_damage name h conds dmg).1 := by
  by_cases hdead : h.state = LifeState.Dead
  · simpa [apply_damage, hdead] using hdz
  · simp only [apply_damage, if_neg hdead]
    split_ifs with h1 h2
    · intro hd; cases hd
    · intro hd; cases hd
    · intro hd
      simp only at hd
      exact absurd hd hdead

theorem deadZero_death_save (name : String) (h : Health)
    (f : Dice → Int × Dice) (d : Dice) (hdz : deadZero h) :
    deadZero (process_death_save_start_of_turn name h f d).1 := by
  unfold process_death_save_start_of_turn
  cases hstate : h.state with
  | Conscious => simpa using hdz
  | Dead => simpa [hstate] using hdz
  | Unconscious s =>
      simp only
      rcases hroll : f d with ⟨roll, d'⟩
      by_cases hq : (!s) = true ∧ h.hp = 0
      · obtain ⟨hs, hhp⟩ := hq
        simp only [hroll, if_pos (And.intro hs hhp)]
        split_ifs <;> intro hd <;>
          simp_all [DeathSaves.default]
      · simp only [hroll, if_neg hq]
        intro hd
        rw [hstate] at hd
        cases hd

theorem duelActorTurn_deadZero (env : DuelEnv) (s : DuelSt)
    (hdz : deadZero s.actorHealth) :
    deadZero (duelActorTurn env s).actorHealth := by
  unfold duelActorTurn
  rcases hds : process_death_save_start_of_turn "Actor" s.actorHealth plainD20
      s.rng with ⟨h1, outcome, evs1, d1⟩
  have hdz1 : deadZero h1 := by
    have := deadZero_death_save "Actor" s.actorHealth plainD20 s.rng hdz
    rw [hds] at this
    exact this
  rcases hb : process_turn_boundary TurnBoundary.StartOfTurn "Actor"
      s.actorConds (actorSaveFn env.actor) d1 with ⟨conds1, evs2, d2⟩
  simp only [hds, hb]
  cases hst : h1.state with
  | Dead =>
      rcases he : process_turn_boundary TurnBoundary.EndOfTurn "Actor" conds1
          (actorSaveFn env.actor) d2 with ⟨conds2, evs4, dF⟩
      try simp only [he]
      exact hdz1
  | Unconscious u =>
      rcases he : process_turn_boundary TurnBoundary.EndOfTurn "Actor" conds1
          (actorSaveFn env.actor) d2 with ⟨conds2, evs4, dF⟩
      try simp only [he]
      exact hdz1
  | Conscious =>
      rcases hatk : attack d2
          (((AdMode.Normal.toVantage).combine
            (vantage_from_conditions conds1 s.enemyConds env.style)).toAdMode)
          env.attack_bonus (env.target.ac + env.target.cover.ac_bonus) with
        ⟨atk, d3⟩
      simp only [hatk]
      by_cases hhit : atk.hit = true
      · simp only [hhit, if_true]
        rcases hdmg : damage d3 env.weapon_dice env.damage_mod atk.is_crit with
          ⟨raw, d4⟩
        try simp only [hdmg]
        rcases he : process_turn_boundary TurnBoundary.EndOfTurn "Actor" conds1
            (actorSaveFn env.actor) d4 with ⟨conds2, evs4, dF⟩
        try simp only [he]
        exact hdz1
      · simp only [hhit, if_false]
        rcases he : process_turn_boundary TurnBoundary.EndOfTurn "Actor" conds1
            (actorSaveFn env.actor) d3 with ⟨conds2, evs4, dF⟩
        try simp only [he]
        exact hdz1

theorem duelEnemyTurn_deadZero (env : DuelEnv) (s : DuelSt)
    (hdz : deadZero s.actorHealth) :
    deadZero (duelEnemyTurn env s).actorHealth := by
  unfold duelEnemyTurn
  rcases hb : process_turn_boundary TurnBoundary.StartOfTurn env.target.name
      s.enemyConds (enemySaveFn env.target) s.rng with ⟨econds1, evs1, d1⟩
  simp only [hb]
  by_cases halive : s.enemyHp > 0
  · simp only [if_pos halive]
    rcases hatk : attack d1
        ((Vantage.Normal.combine
          (vantage_from_conditions econds1 s.actorConds
            (if env.target_attack.ranged then AttackStyle.Ranged
             else AttackStyle.Melee))).toAdMode)
        env.target_attack.to_hit (env.actor_ac + Cover.CNone.ac_bonus) with
      ⟨atk, d2⟩
    simp only [hatk]
    by_cases hhit : atk.hit = true
    · simp only [hhit, if_true]
      rcases hdmg : damage d2 env.target_attack.dice 0 atk.is_crit with
        ⟨dmg, d3⟩
      simp only [hdmg]
      rcases had : apply_damage "Actor" s.actorHealth s.actorConds dmg with
        ⟨h1, aconds1, dropped, evs2⟩
      have hdz1 : deadZero h1 := by
        have := deadZero_apply_damage "Actor" s.actorHealth s.actorConds dmg hdz
        rw [had] at this
        exact this
      simp only [had]
      cases hac : env.target_attack.apply_condition with
      | none =>
          rcases he : process_turn_boundary TurnBoundary.EndOfTurn
              env.target.name econds1 (enemySaveFn env.target) d3 with
            ⟨econds2, evs4, dF⟩
          try simp only [he]
          exact hdz1
      | some spec =>
          rcases hmc : maybe_apply_on_hit_condition "Actor" aconds1 spec
              (actorSaveFn env.actor) d3 with ⟨aconds2, evs3, d4⟩
          try simp only [hmc]
          rcases he : process_turn_boundary TurnBoundary.EndOfTurn
              env.target.name econds1 (enemySaveFn env.target) d4 with
            ⟨econds2, evs4, dF⟩
          try simp only [he]
          exact hdz1
    · simp only [hhit, if_false]
      rcases he : process_turn_boundary TurnBoundary.EndOfTurn env.target.name
          econds1 (enemySaveFn env.target) d2 with ⟨econds2, evs4, dF⟩
      try simp only [he]
      exact hdz
  · simp only [if_neg halive]
    rcases he : process_turn_boundary TurnBoundary.EndOfTurn env.target.name
        econds1 (enemySaveFn env.target) d1 with ⟨econds2, evs4, dF⟩
    try simp only [he]
    exact hdz

theorem duelRound_deadZero (env : DuelEnv) (s : DuelSt)
    (hdz : deadZero s.actorHealth) :
    deadZero (duelRound env s).actorHealth := by
  unfold duelRound
  by_cases ht : s.actorTurn = true
  · simp only [ht, if_true]
    exact duelActorTurn_deadZero env _ hdz
  · simp only [ht, if_false]
    exact duelEnemyTurn_deadZero env _ hdz

theorem duelLoop_deadZero (env : DuelEnv) :
    ∀ (fuel : Nat) (s : DuelSt), deadZero s.actorHealth →
      deadZero (duelLoop env fuel s).actorHealth := by
  intro fuel
  induction fuel with
  | zero => intro s hdz; exact hdz
  | succ fuel ih =>
      intro s hdz
      rw [duelLoop]
      dsimp only
      split_ifs with h1 h2
      · exact duelRound_deadZero env s hdz
      · exact ih _ (duelRound_deadZero env s hdz)
      · exact hdz

theorem duelWinner_cases (s : DuelSt) (hdz : deadZero s.actorHealth) :
    (s.enemyHp ≤ 0 → s.actorHealth.hp > 0 → duelWinner s = "actor") ∧
    ((s.actorHealth.state = LifeState.Dead ∨ s.actorHealth.hp ≤ 0) →
      s.enemyHp > 0 → duelWinner s = "enemy") ∧
    (s.enemyHp ≤ 0 → s.actorHealth.hp ≤ 0 → duelWinner s = "draw") ∧
    (s.actorHealth.hp > 0 → s.enemyHp > 0 → duelWinner s = "draw") := by
  refine ⟨?_, ?_, ?_, ?_⟩
  · intro h1 h2
    simp [duelWinner, h1, h2]
  · intro h1 h2
    have he : ¬ s.enemyHp ≤ 0 := by omega
    simp [duelWinner, he, h1]
  · intro h1 h2
    have ha : ¬ s.actorHealth.hp > 0 := by omega
    simp [duelWinner, h1, ha, h2]
  · intro h1 h2
    have he : ¬ s.enemyHp ≤ 0 := by omega
    have hnd : ¬ (s.actorHealth.state = LifeState.Dead ∨
        s.actorHealth.hp ≤ 0) := by
      rintro (hd | hh)
      · have := hdz hd; omega
      · omega
    simp [duelWinner, he, hnd]

def clawC2 : TargetAttack :=
  { name := "claw", to_hit := -30, dice := { count := 1, sides := 1 },
    damage_type := none, ranged := false, apply_condition := none }

def tgtC2a : TargetData :=
  { name := "Wall", ac := 30, hp := 5, dex_mod := 0, abilities := none,
    attacks := [clawC2], resistances := [], vulnerabilities := [],
    immunities := [], conditions := [], cover := Cover.CNone }

def cfgC2a : DuelCfg :=
  { target := tgtC2a, weapons := [swordC1], weapon := "sword",
    actor_conditions := [], enemy_conditions := [], seed := 0,
    actor_hp := none }

def tgtC2b : TargetData :=
  { name := "Wisp", ac := 13, hp := 1, dex_mod := 0, abilities := none,
    attacks := [clawC2], resistances := [], vulnerabilities := [],
    immunities := [], conditions := [], cover := Cover.CNone }

def cfgC2b : DuelCfg :=
  { target := tgtC2b, weapons := [swordC1], weapon := "sword",
    actor_conditions := [], enemy_conditions := [], seed := 0,
    actor_hp := some 0 }

/-- C2 counterexample: when the round cap is reached with both sides still
standing (every d20 rolls 1 and everything misses for 30 rounds), the winner
field of simulate_duel is the string draw, not a distinct inconclusive
outcome: a mutual-KO duel (actor at 0 HP kills the 1 HP enemy) produces the
very same value.  The "max rounds reached" wording exists only in the CLI
printer, not in the simulate_duel result. -/
theorem cap_reached_winner_counterexample :
    ((simulate_duel (fun _ _ => 0) cfgC2a).map fun f =>
      (f.result.winner, f.result.rounds, f.result.actor_hp_end,
        f.result.enemy_hp_end)) = some ("draw", 30, 12, 5) ∧
    ((simulate_duel (fun _ _ => 18) cfgC2b).map fun f =>
      (f.result.winner, f.result.actor_hp_end, f.result.enemy_hp_end)) =
      some ("draw", 0, 0) := by
  constructor
  · decide
  · decide

/-- C2 (amended): for every duel, the terminal result satisfies: enemy at or
below 0 with actor HP positive gives winner actor; actor Dead or at or below
0 with the enemy alive gives winner enemy; both at or below 0 gives draw; and
when the cap is reached with both sides still standing the winner is also the
string draw — the same value as mutual KO, not a distinct max-rounds
outcome. -/
theorem duel_winner_spec (streamOf : Nat → Nat → Nat) (cfg : DuelCfg)
    (f : DuelFull) (hf : simulate_duel streamOf cfg = some f) :
    (f.result.enemy_hp_end ≤ 0 → f.result.actor_hp_end > 0 →
      f.result.winner = "actor") ∧
    ((f.actorHealth.state = LifeState.Dead ∨ f.result.actor_hp_end ≤ 0) →
      f.result.enemy_hp_end > 0 → f.result.winner = "enemy") ∧
    (f.result.enemy_hp_end ≤ 0 → f.result.actor_hp_end ≤ 0 →
      f.result.winner = "draw") ∧
    (f.result.actor_hp_end > 0 → f.result.enemy_hp_end > 0 →
      f.result.winner = "draw") := by
  unfold simulate_duel at hf
  cases hatt : cfg.target.attacks.head? with
  | none => rw [hatt] at hf; cases hf
  | some ta =>
      rw [hatt] at hf
      cases hw : find_weapon cfg.weapons cfg.weapon with
      | none => rw [hw] at hf; cases hf
      | some w =>
          rw [hw] at hf
          simp only [Option.some.injEq] at hf
          subst hf
          unfold duelFullMk
          dsimp only
          apply duelWinner_cases
          apply duelLoop_deadZero
          intro hd
          simp [mkDuelSt0, Health.new] at hd

theorem duel_winner_spec_witness :
    ((simulate_duel (fun _ _ => 18) cfgC2b).get (by decide)).result.winner =
      "draw" := by
  have h := duel_winner_spec (fun _ _ => 18) cfgC2b
    ((simulate_duel (fun _ _ => 18) cfgC2b).get (by decide))
    (Option.some_get (by decide)).symm
  exact h.2.2.1 (by decide) (by decide)

/-! ## Claim C9: Monte Carlo batch mode -/

/-- The winner of the standalone duel run with the seed derived for sample
i (base seed plus i, wrapping at 2^64). -/
def sampleWinnerStr (streamOf : Nat → Nat → Nat) (cfg : DuelCfg) (i : Nat) :
    Option String :=
  (simulate_duel streamOf { cfg with seed := (cfg.seed + i) % 2 ^ 64 }).map
    fun f => f.result.winner

def sampleIsWinner (streamOf : Nat → Nat → Nat) (cfg : DuelCfg) (w : String)
    (i : Nat) : Bool :=
  sampleWinnerStr streamOf cfg i = some w

def sampleIsDraw (streamOf : Nat → Nat → Nat) (cfg : DuelCfg) (i : Nat) :
    Bool :=
  match sampleWinnerStr streamOf cfg i with
  | some w => ¬ (w = "actor") ∧ ¬ (w = "enemy")
  | none => false

theorem duelManyFrom_spec (streamOf : Nat → Nat → Nat) (cfg : DuelCfg) :
    ∀ (k i : Nat) (t : Nat × Nat × Nat × Nat),
      duelManyFrom streamOf cfg i k = some t →
      (∀ j, j ∈ List.range' i k → (sampleWinnerStr streamOf cfg j).isSome) ∧
      t.1 = ((List.range' i k).filter
        (sampleIsWinner streamOf cfg "actor")).length ∧
      t.2.1 = ((List.range' i k).filter
        (sampleIsWinner streamOf cfg "enemy")).length ∧
      t.2.2.1 = ((List.range' i k).filter
        (sampleIsDraw streamOf cfg)).length ∧
      t.1 + t.2.1 + t.2.2.1 = k := by
  intro k
  induction k with
  | zero =>
      intro i t ht
      simp only [duelManyFrom, Option.some.injEq] at ht
      subst ht
      simp [List.range']
  | succ k ih =>
      intro i t ht
      rw [duelManyFrom] at ht
      cases hs : simulate_duel streamOf
          { cfg with seed := (cfg.seed + i) % 2 ^ 64 } with
      | none => rw [hs] at ht; cases ht
      | some out =>
          rw [hs] at ht
          cases hrec : duelManyFrom streamOf cfg (i + 1) k with
          | none => rw [hrec] at ht; cases ht
          | some t' =>
              rw [hrec] at ht
              rcases t' with ⟨aw, ew, dr, sr⟩
              simp only [Option.some.injEq] at ht
              subst ht
              obtain ⟨hall, ha, he, hd, hsum⟩ := ih (i + 1) _ hrec
              simp only at ha he hd hsum
              have hw : sampleWinnerStr streamOf cfg i =
                  some out.result.winner := by
                unfold sampleWinnerStr
                rw [hs]
                rfl
              have hrange : List.range' i (k + 1) =
                  i :: List.range' (i + 1) k := List.range'_succ i k 1
              refine ⟨?_, ?_, ?_, ?_, ?_⟩
              · intro j hj
                rw [hrange] at hj
                rcases List.mem_cons.mp hj with rfl | hj2
                · rw [hw]; rfl
                · exact hall j hj2
              · rw [hrange, List.filter_cons]
                by_cases hwin : out.result.winner = "actor" <;>
                  simp [sampleIsWinner, hw, hwin, ha] <;> omega
              · rw [hrange, List.filter_cons]
                by_cases hwin : out.result.winner = "enemy" <;>
                  simp [sampleIsWinner, hw, hwin, he] <;> omega
              · rw [hrange, List.filter_cons]
                by_cases hwa : out.result.winner = "actor" <;>
                  by_cases hwe : out.result.winner = "enemy" <;>
                  simp [sampleIsDraw, hw, hwa, hwe, hd] <;> omega
              · simp only
                by_cases hwa : out.result.winner = "actor" <;>
                  by_cases hwe : out.result.winner = "enemy" <;>
                  simp [hwa, hwe] <;> omega

/-- C9: simulate_duel_many over n samples reports samples = n, the three
outcome counters partition the n samples (their sum is n), each sample i is
the standalone simulate_duel run with derived seed (base + i) mod 2^64 (so
the counters are exactly the counts of the per-sample standalone outcomes,
and no sample depends on another's execution), and every sample ran. -/
theorem duel_many_spec (streamOf : Nat → Nat → Nat) (cfg : DuelCfg) (n : Nat)
    (S : DuelStats) (h : simulate_duel_many streamOf cfg n = some S) :
    S.samples = n ∧
    S.actor_wins + S.enemy_wins + S.draws = n ∧
    (∀ j, j < n → (sampleWinnerStr streamOf cfg j).isSome) ∧
    S.actor_wins = ((List.range n).filter
      (sampleIsWinner streamOf cfg "actor")).length ∧
    S.enemy_wins = ((List.range n).filter
      (sampleIsWinner streamOf cfg "enemy")).length ∧
    S.draws = ((List.range n).filter (sampleIsDraw streamOf cfg)).length := by
  unfold simulate_duel_many at h
  cases hm : duelManyFrom streamOf cfg 0 n with
  | none => rw [hm] at h; cases h
  | some t =>
      rw [hm] at h
      rcases t with ⟨aw, ew, dr, sr⟩
      simp only [Option.some.injEq] at h
      subst h
      obtain ⟨hall, ha, he, hd, hsum⟩ := duelManyFrom_spec streamOf cfg n 0 _ hm
      simp only at ha he hd hsum
      rw [List.range_eq_range']
      refine ⟨rfl, hsum, ?_, ha, he, hd⟩
      intro j hj
      exact hall j (List.mem_range'_1.mpr ⟨Nat.zero_le j, by omega⟩)

theorem duel_many_spec_witness :
    ((simulate_duel_many (fun _ _ => 18) cfgC2b 3).get (by decide)).samples =
        3 ∧
      ((simulate_duel_many (fun _ _ => 18) cfgC2b 3).get (by decide)).actor_wins
          +
          ((simulate_duel_many (fun _ _ => 18) cfgC2b 3).get
              (by decide)).enemy_wins +
          ((simulate_duel_many (fun _ _ => 18) cfgC2b 3).get
              (by decide)).draws =
        3 := by
  have h := duel_many_spec (fun _ _ => 18) cfgC2b 3
    ((simulate_duel_many (fun _ _ => 18) cfgC2b 3).get (by decide))
    (Option.some_get (by decide)).symm
  exact ⟨h.1, h.2.1⟩

/-! ## Claim C10: only the first attack of an enemy matters -/

/-- The duel configuration with the target attack list replaced. -/
def withAttacks (cfg : DuelCfg) (l : List TargetAttack) : DuelCfg :=
  { cfg with target := { cfg.target with attacks := l } }

theorem head?_take_one {α : Type} (l : List α) :
    (l.take 1).head? = l.head? := by
  cases l <;> rfl

theorem duelRound_mkEnv_attacks (cfg : DuelCfg) (l : List TargetAttack)
    (ta : TargetAttack) (w : Weapon) (s : DuelSt) :
    duelRound (mkDuelEnv (withAttacks cfg l) ta w) s =
      duelRound (mkDuelEnv cfg ta w) s := rfl

theorem duelLoop_mkEnv_attacks (cfg : DuelCfg) (l : List TargetAttack)
    (ta : TargetAttack) (w : Weapon) :
    ∀ (fuel : Nat) (s : DuelSt),
      duelLoop (mkDuelEnv (withAttacks cfg l) ta w) fuel s =
        duelLoop (mkDuelEnv cfg ta w) fuel s := by
  intro fuel
  induction fuel with
  | zero => intro s; rfl
  | succ fuel ih =>
      intro s
      rw [duelLoop, duelLoop]
      dsimp only
      rw [duelRound_mkEnv_attacks cfg l ta w s]
      split_ifs with h1 h2
      · rfl
      · exact ih _
      · rfl

theorem mkDuelSt0_attacks (streamOf : Nat → Nat → Nat) (cfg : DuelCfg)
    (l : List TargetAttack) :
    mkDuelSt0 streamOf (withAttacks cfg l) = mkDuelSt0 streamOf cfg := rfl

theorem duelFullMk_attacks (streamOf : Nat → Nat → Nat) (cfg : DuelCfg)
    (l : List TargetAttack) (ta : TargetAttack) (w : Weapon) :
    duelFullMk streamOf (withAttacks cfg l) ta w =
      duelFullMk streamOf cfg ta w := by
  simp only [duelFullMk]
  rw [mkDuelSt0_attacks streamOf cfg l, duelLoop_mkEnv_attacks cfg l ta w]

/-- Truncate a target to its first attack; truncate an enemy state and
whole-encounter variants likewise. -/
def truncT (t : TargetData) : TargetData :=
  { t with attacks := t.attacks.take 1 }

def truncE (e : EnemyState) : EnemyState := { e with data := truncT e.data }

def truncSt (s : EncSt) : EncSt := { s with enemies := s.enemies.map truncE }

def withTruncEnemies (cfg : EncounterCfg) : EncounterCfg :=
  { cfg with encounter :=
      { cfg.encounter with enemies := cfg.encounter.enemies.map truncT } }

theorem truncE_hp (e : EnemyState) : (truncE e).hp = e.hp := rfl

theorem encEnemyTurn_trunc (env : EncEnv) (e : EnemyState) (st : EncTurnSt) :
    encEnemyTurn env (truncE e) st =
      (truncE (encEnemyTurn env e st).1, (encEnemyTurn env e st).2) := by
  rcases e with ⟨data, hp, res, vul, imm, conds⟩
  rcases data with ⟨nm, tac, thp, dx, ab, attacks, rs, vs, ims, cs, cov⟩
  cases attacks with
  | nil => rfl
  | cons a rest => rfl

theorem encActorAttack_trunc (env : EncEnv) :
    ∀ (es : List EnemyState) (st : EncTurnSt),
      encActorAttack env (es.map truncE) st =
        ((encActorAttack env es st).1.map truncE,
          (encActorAttack env es st).2) := by
  intro es
  induction es with
  | nil => intro st; rfl
  | cons e rest ih =>
      intro st
      rcases e with ⟨data, hp, res, vul, imm, conds⟩
      simp only [List.map_cons]
      rw [encActorAttack, encActorAttack]
      dsimp only [truncE, truncT]
      by_cases h : hp > 0
      · simp only [if_pos h]
        split
        · simp only [List.map_cons]
          rfl
        · simp only [List.map_cons]
          rfl
      · simp only [if_neg h]
        rw [ih st]
        rfl

theorem encEnemyTurns_trunc (env : EncEnv) :
    ∀ (es : List EnemyState) (st : EncTurnSt),
      encEnemyTurns env (es.map truncE) st =
        ((encEnemyTurns env es st).1.map truncE,
          (encEnemyTurns env es st).2) := by
  intro es
  induction es with
  | nil => intro st; rfl
  | cons e rest ih =>
      intro st
      simp only [List.map_cons]
      rw [encEnemyTurns, encEnemyTurns]
      rw [truncE_hp]
      by_cases h : e.hp ≤ 0
      · simp only [if_pos h]
        rw [ih st]
        rfl
      · simp only [if_neg h]
        rw [encEnemyTurn_trunc env e st]
        dsimp only
        rw [ih]
        rfl

theorem all_hp_trunc : ∀ l : List EnemyState,
    ((l.map truncE).all fun e => e.hp ≤ 0) = (l.all fun e => e.hp ≤ 0) := by
  intro l
  induction l with
  | nil => rfl
  | cons e rest ih => simp only [List.map_cons, List.all_cons, ih]; rfl

theorem encRound_trunc (env : EncEnv) (s : EncSt) :
    encRound env (truncSt s) = truncSt (encRound env s) := by
  unfold encRound
  rw [show (truncSt s).logs = s.logs from rfl,
    show (truncSt s).rounds = s.rounds from rfl,
    show (truncSt s).actorHealth = s.actorHealth from rfl,
    show (truncSt s).actorConds = s.actorConds from rfl,
    show (truncSt s).rng = s.rng from rfl,
    show (truncSt s).enemies = s.enemies.map truncE from rfl]
  rcases hds : process_death_save_start_of_turn "Actor" s.actorHealth plainD20
      s.rng with ⟨h1, outcome, evs1, d1⟩
  try dsimp only
  rcases hb : process_turn_boundary TurnBoundary.StartOfTurn "Actor"
      s.actorConds (actorSaveFn env.actor) d1 with ⟨aconds1, evs2, d2⟩
  try dsimp only
  by_cases hcon : h1.state = LifeState.Conscious
  · simp only [if_pos hcon]
    rw [encActorAttack_trunc env s.enemies]
    try dsimp only
    rw [encEnemyTurns_trunc env]
    rfl
  · simp only [if_neg hcon]
    try dsimp only
    rw [encEnemyTurns_trunc env]
    rfl

theorem encLoop_trunc (env : EncEnv) :
    ∀ (fuel : Nat) (s : EncSt),
      encLoop env fuel (truncSt s) = truncSt (encLoop env fuel s) := by
  intro fuel
  induction fuel with
  | zero => intro s; rfl
  | succ fuel ih =>
      intro s
      rw [encLoop, encLoop]
      rw [show (truncSt s).actorHealth = s.actorHealth from rfl,
        show (truncSt s).enemies = s.enemies.map truncE from rfl,
        all_hp_trunc s.enemies]
      split_ifs with h1 h2
      · rfl
      · rfl
      · rw [encRound_trunc env s, ih (encRound env s)]

theorem truncSt_enemies (s : EncSt) :
    (truncSt s).enemies = s.enemies.map truncE := rfl

theorem enemies_init_trunc : ∀ l : List TargetData,
    (l.map truncT).map encInitEnemy = (l.map encInitEnemy).map truncE := by
  intro l
  induction l with
  | nil => rfl
  | cons t rest ih =>
      simp only [List.map_cons, ih]
      rfl

theorem encCondLogs_trunc : ∀ l : List TargetData,
    encCondLogs (l.map truncT) = encCondLogs l := by
  intro l
  induction l with
  | nil => rfl
  | cons t rest ih =>
      simp only [encCondLogs, List.map_cons, List.flatMap_cons]
      simp only [encCondLogs] at ih
      rw [ih]
      rfl

theorem mkEncSt0_trunc (streamOf : Nat → Nat → Nat) (cfg : EncounterCfg) :
    mkEncSt0 streamOf (withTruncEnemies cfg) =
      truncSt (mkEncSt0 streamOf cfg) := by
  dsimp only [mkEncSt0, truncSt, withTruncEnemies]
  simp only [List.length_map, encCondLogs_trunc, enemies_init_trunc]

theorem filter_hp_trunc : ∀ l : List EnemyState,
    ((l.map truncE).filter fun e => e.hp > 0).length =
      (l.filter fun e => e.hp > 0).length := by
  intro l
  induction l with
  | nil => rfl
  | cons e rest ih =>
      simp only [List.map_cons, List.filter_cons, truncE_hp]
      by_cases h : e.hp > 0 <;> simp [h, ih]

theorem encFullMk_trunc (streamOf : Nat → Nat → Nat) (cfg : EncounterCfg)
    (w : Weapon) :
    (encFullMk streamOf (withTruncEnemies cfg) w).result =
      (encFullMk streamOf cfg w).result := by
  simp only [encFullMk]
  rw [mkEncSt0_trunc, encLoop_trunc]
  simp only [truncSt_enemies, filter_hp_trunc]
  rfl

theorem isEmpty_map_truncT (l : List TargetData) :
    (l.map truncT).isEmpty = l.isEmpty := by
  cases l <;> rfl

/-- C10: attack entries past index 0 never matter.  Replacing the duel
target attack list by its one-element prefix leaves simulate_duel
unchanged, and truncating every encounter enemy attack list to its first
entry leaves the simulate_encounter result, including the event log,
unchanged. -/
theorem first_attack_only (streamOf : Nat → Nat → Nat) (dcfg : DuelCfg)
    (ecfg : EncounterCfg) :
    simulate_duel streamOf (withAttacks dcfg (dcfg.target.attacks.take 1)) =
        simulate_duel streamOf dcfg ∧
      (simulate_encounter streamOf (withTruncEnemies ecfg)).map
          (fun f => f.result) =
        (simulate_encounter streamOf ecfg).map (fun f => f.result) := by
  constructor
  · unfold simulate_duel
    rw [show (withAttacks dcfg (dcfg.target.attacks.take 1)).target.attacks =
        dcfg.target.attacks.take 1 from rfl,
      head?_take_one,
      show (withAttacks dcfg (dcfg.target.attacks.take 1)).weapons =
        dcfg.weapons from rfl,
      show (withAttacks dcfg (dcfg.target.attacks.take 1)).weapon =
        dcfg.weapon from rfl]
    cases dcfg.target.attacks.head? with
    | none => rfl
    | some ta =>
        cases find_weapon dcfg.weapons dcfg.weapon with
        | none => rfl
        | some w =>
            simp only [Option.some.injEq]
            exact duelFullMk_attacks streamOf dcfg
              (dcfg.target.attacks.take 1) ta w
  · unfold simulate_encounter
    rw [show (withTruncEnemies ecfg).encounter.enemies =
        ecfg.encounter.enemies.map truncT from rfl,
      isEmpty_map_truncT,
      show (withTruncEnemies ecfg).weapons = ecfg.weapons from rfl]
    by_cases he : ecfg.encounter.enemies.isEmpty
    · simp only [if_pos he, Option.map_none]
    · simp only [if_neg he]
      cases find_weapon ecfg.weapons "longsword" with
      | none => rfl
      | some w =>
          exact congrArg some (encFullMk_trunc streamOf ecfg w)

/-! ## Claim C3: the lowest focus strategy targets the weakest living enemy -/

theorem ltLexII_irrefl (p : Int × Int) : ltLexII p p = false := by
  simp [ltLexII]

theorem ltLexII_asymm (p q : Int × Int) (h : ltLexII p q = true) :
    ltLexII q p = false := by
  rcases p with ⟨a, b⟩
  rcases q with ⟨c, d⟩
  simp only [ltLexII, Bool.or_eq_true, Bool.and_eq_true, decide_eq_true_eq,
    Bool.or_eq_false_iff, Bool.and_eq_false_iff, decide_eq_false_iff_not] at *
  omega

theorem ltLexII_negtrans (p q r : Int × Int) (h1 : ltLexII p q = false)
    (h2 : ltLexII q r = false) : ltLexII p r = false := by
  rcases p with ⟨a, b⟩
  rcases q with ⟨c, d⟩
  rcases r with ⟨e, f⟩
  simp only [ltLexII, Bool.or_eq_false_iff, Bool.and_eq_false_iff,
    decide_eq_false_iff_not] at *
  omega

theorem minByKey_eq_none {α β : Type} (lt : β → β → Bool) (key : α → β) :
    ∀ l : List α, minByKey lt key l = none ↔ l = [] := by
  intro l
  cases l with
  | nil => simp [minByKey]
  | cons x xs =>
      constructor
      · intro h
        cases hm : minByKey lt key xs with
        | none => rw [minByKey, hm] at h; cases h
        | some a =>
            rw [minByKey, hm] at h
            dsimp only at h
            split_ifs at h <;> cases h
      · intro h
        cases h

theorem minByKey_lex_spec {α : Type} (key : α → Int × Int) :
    ∀ (l : List α) (a : α), minByKey ltLexII key l = some a →
      a ∈ l ∧ ∀ y ∈ l, ltLexII (key y) (key a) = false := by
  intro l
  induction l with
  | nil => intro a h; cases h
  | cons x xs ih =>
      intro a h
      rw [minByKey] at h
      cases hm : minByKey ltLexII key xs with
      | none =>
          rw [hm] at h
          cases h
          have hnil : xs = [] := (minByKey_eq_none ltLexII key xs).mp hm
          subst hnil
          refine ⟨List.mem_cons_self x [], ?_⟩
          intro y hy
          rcases List.mem_singleton.mp hy with rfl
          exact ltLexII_irrefl (key y)
      | some b =>
          rw [hm] at h
          dsimp only at h
          obtain ⟨hbmem, hbmin⟩ := ih b hm
          split_ifs at h with hlt
          · cases h
            refine ⟨List.mem_cons_of_mem x hbmem, ?_⟩
            intro y hy
            rcases List.mem_cons.mp hy with rfl | hyx
            · exact ltLexII_asymm _ _ hlt
            · exact hbmin y hyx
          · cases h
            refine ⟨List.mem_cons_self x xs, ?_⟩
            intro y hy
            rcases List.mem_cons.mp hy with rfl | hyx
            · exact ltLexII_irrefl (key y)
            · exact ltLexII_negtrans _ _ _ (hbmin y hyx)
                (Bool.eq_false_iff.mpr hlt)

/-- The alive index and hp pair list built by select_enemy_target. -/
def aliveList (enemies : List CliEnemy) : List (Nat × Int) :=
  (enemies.enum.filter fun p => p.2.hp > 0).map fun p => (p.1, p.2.hp)

theorem mem_aliveList_iff (enemies : List CliEnemy) (i : Nat) (hp : Int) :
    ((i, hp) ∈ aliveList enemies) ↔
      ∃ e, enemies.get? i = some e ∧ e.hp > 0 ∧ hp = e.hp := by
  constructor
  · intro h
    rcases List.mem_map.mp h with ⟨p, hpf, heq⟩
    rcases List.mem_filter.mp hpf with ⟨hmem, halive⟩
    rcases p with ⟨k, e⟩
    have hk : k = i := congrArg Prod.fst heq
    have hhp : e.hp = hp := congrArg Prod.snd heq
    subst hk
    refine ⟨e, ?_, ?_, hhp.symm⟩
    · rw [List.get?_eq_getElem?]
      exact List.mk_mem_enum_iff_getElem?.mp hmem
    · simpa using halive
  · rintro ⟨e, hget, hpos, rfl⟩
    refine List.mem_map.mpr ⟨(i, e), List.mem_filter.mpr ⟨?_, ?_⟩, rfl⟩
    · exact List.mk_mem_enum_iff_getElem?.mpr
        (by rw [← List.get?_eq_getElem?]; exact hget)
    · simpa using hpos

theorem select_lowest_eq (enemies : List CliEnemy) (rng : Dice) :
    select_enemy_target "lowest" enemies rng =
      (if (aliveList enemies).isEmpty then (none, rng)
       else
         ((minByKey ltLexII (fun p : Nat × Int => (p.2, (p.1 : Int)))
             (aliveList enemies)).map fun p => p.1, rng)) := rfl

theorem select_lowest_spec (enemies : List CliEnemy) (rng : Dice) (j : Nat)
    (h : (select_enemy_target "lowest" enemies rng).1 = some j) :
    ∃ e, enemies.get? j = some e ∧ e.hp > 0 ∧
      ∀ i e2, enemies.get? i = some e2 → e2.hp > 0 →
        e.hp < e2.hp ∨ (e.hp = e2.hp ∧ j ≤ i) := by
  rw [select_lowest_eq] at h
  by_cases hemp : (aliveList enemies).isEmpty
  · rw [if_pos hemp] at h
    cases h
  · rw [if_neg hemp] at h
    cases hm : minByKey ltLexII (fun p : Nat × Int => (p.2, (p.1 : Int)))
        (aliveList enemies) with
    | none => rw [hm] at h; cases h
    | some p =>
        rw [hm] at h
        obtain ⟨hpmem, hpmin⟩ := minByKey_lex_spec _ _ p hm
        have hj : p.1 = j := by
          simpa using h
        rcases p with ⟨k, khp⟩
        subst hj
        rcases (mem_aliveList_iff enemies k khp).mp hpmem with
          ⟨e, hget, hpos, rfl⟩
        refine ⟨e, hget, hpos, ?_⟩
        intro i e2 hget2 hpos2
        have hmem2 : (i, e2.hp) ∈ aliveList enemies :=
          (mem_aliveList_iff enemies i e2.hp).mpr ⟨e2, hget2, hpos2, rfl⟩
        have hlt := hpmin (i, e2.hp) hmem2
        simp only [ltLexII, Bool.or_eq_false_iff, Bool.and_eq_false_iff,
          decide_eq_false_iff_not] at hlt
        omega

theorem cliActorTurn_chosen_sel (env : CliEnv) (s : CliSt) (j : Nat)
    (hc : (cliActorTurn env s).2 = some j) :
    ∃ d : Dice, (select_enemy_target env.focus s.enemies d).1 = some j := by
  unfold cliActorTurn at hc
  dsimp only at hc
  split at hc
  · split at hc
    · rename_i target_idx heq
      split at hc
      · split at hc
        · split at hc
          · cases hc
            exact ⟨_, heq⟩
          · cases hc
            exact ⟨_, heq⟩
        · cases hc
          exact ⟨_, heq⟩
      · cases hc
    · cases hc
  · cases hc

/-- C3: with the lowest focus strategy, whenever the actor turn picks a
target index, the chosen enemy is alive in the current state and has
minimal current hp among the living enemies, ties broken by the smaller
original index.  The state s is arbitrary, so the choice is a function of
the current enemy list and is re-evaluated on every turn rather than
cached. -/
theorem lowest_focus_targets_weakest (env : CliEnv) (s : CliSt) (j : Nat)
    (hf : env.focus = "lowest")
    (hc : (cliActorTurn env s).2 = some j) :
    ∃ e, s.enemies.get? j = some e ∧ e.hp > 0 ∧
      ∀ i e2, s.enemies.get? i = some e2 → e2.hp > 0 →
        e.hp < e2.hp ∨ (e.hp = e2.hp ∧ j ≤ i) := by
  rcases cliActorTurn_chosen_sel env s j hc with ⟨d, hsel⟩
  rw [hf] at hsel
  exact select_lowest_spec s.enemies d j hsel

def envC3 : CliEnv :=
  { actor := sample_fighter, actor_ac := 16, mode := AdMode.Normal,
    style := AttackStyle.Melee, dmg_spec := { count := 1, sides := 8 },
    dtype := DamageType.Slashing, attack_bonus := 5, damage_mod := 3,
    focus := "lowest", max_rounds := 10 }

def goblinC3 (hp : Int) : CliEnemy :=
  { name := "goblin", ac := 12, hp := hp, dex_mod := 1, abilities := none,
    attacks := [], resist := [], vuln := [], immune := [], conditions := [] }

def stC3 : CliSt :=
  { rng := { stream := fun _ => 0, pos := 0 }, actorHealth := Health.new 20,
    actorConds := [], enemies := [goblinC3 5, goblinC3 3],
    autoPotionLeft := false }

theorem lowest_focus_targets_weakest_witness :
    envC3.focus = "lowest" ∧ (cliActorTurn envC3 stC3).2 = some 1 ∧
      ∃ e, stC3.enemies.get? 1 = some e ∧ e.hp > 0 ∧
        ∀ i e2, stC3.enemies.get? i = some e2 → e2.hp > 0 →
          e.hp < e2.hp ∨ (e.hp = e2.hp ∧ 1 ≤ i) :=
  ⟨rfl, by decide,
    lowest_focus_targets_weakest envC3 stC3 1 rfl (by decide)⟩
